import Mathlib

/-!
Verification development for the odetest ODE-solver core.

The TypeScript sources are embedded shallowly:
* JavaScript numbers are modelled by `JVal`: an exact rational (`fin q`)
  or a single non-finite element (`nonfin`, collapsing Infinity,
  -Infinity and NaN - the solver only ever distinguishes finite from
  non-finite via Number.isFinite, and compares magnitudes of values it
  has already checked to be finite).
* Exceptions are modelled with `Except String`.
* Wall-clock measurement (performance.now) and the cooperative yield
  every 1000 iterations have no numerical effect and are not modelled.
-/

/-- A JavaScript number: a finite value (exact rational) or a non-finite
value. Infinity, -Infinity and NaN are collapsed into `nonfin`; every
place the solver consumes such a value treats the three alike. -/
inductive JVal where
  | fin (q : ℚ)
  | nonfin
deriving DecidableEq, Repr

namespace JVal

/-- JS addition on the finite/non-finite abstraction: the sum of two
finite doubles is finite (overflow is not modelled; the solver rejects
magnitudes above 1e10 long before double overflow), and any operation
touching Infinity or NaN yields a non-finite result
(Infinity + (-Infinity) = NaN, NaN + x = NaN). -/
def add : JVal → JVal → JVal
  | fin a, fin b => fin (a + b)
  | _, _ => nonfin

/-- JS multiplication: finite times finite is finite, anything with a
non-finite operand is non-finite (0 * Infinity = NaN). -/
def mul : JVal → JVal → JVal
  | fin a, fin b => fin (a * b)
  | _, _ => nonfin

/-- JS division: a finite numerator over a finite non-zero denominator is
finite; division by zero gives Infinity or NaN. A non-finite operand is
conservatively mapped to `nonfin` (a finite over Infinity is really 0 in
JS, but no code path in this development divides by a non-finite value:
the numerical methods only divide by the literals 2 and 6). -/
def div : JVal → JVal → JVal
  | fin a, fin b => if b = 0 then nonfin else fin (a / b)
  | _, _ => nonfin

/-- JS unary minus. -/
def neg : JVal → JVal
  | fin a => fin (-a)
  | nonfin => nonfin

/-- JS subtraction. -/
def sub : JVal → JVal → JVal
  | fin a, fin b => fin (a - b)
  | _, _ => nonfin

/-- Number.isFinite. -/
def isFinite : JVal → Bool
  | fin _ => true
  | nonfin => false

/-- Math.abs(v) > bound, for a bound tested by the solver. For a
non-finite v the solver never reaches this test (it checks
Number.isFinite first); Math.abs(Infinity) > 1e10 would be true in JS,
NaN comparisons false - the unreachable branch answers `true`. -/
def absGt (v : JVal) (bound : ℚ) : Bool :=
  match v with
  | fin a => |a| > bound
  | nonfin => true

/-- Math.min of two values (finite case; any non-finite input gives a
non-finite result - in JS NaN propagates and Infinity can only appear
here if a non-finite y slipped through, which the solver prevents). -/
def jmin : JVal → JVal → JVal
  | fin a, fin b => fin (min a b)
  | _, _ => nonfin

/-- Math.max of two values, same conventions as `jmin`. -/
def jmax : JVal → JVal → JVal
  | fin a, fin b => fin (max a b)
  | _, _ => nonfin

end JVal

/-- `src/ode-solver/types.ts` ODEFunction: f(t, y) for dy/dt = f(t, y).
The t argument stays an exact rational (the integration loop only ever
passes finite t values); the y argument can be a non-finite intermediate
stage value; the evaluator may throw. -/
abbrev ODEFunction : Type := ℚ → JVal → Except String JVal

/-- `src/ode-solver/types.ts` CoupledODEFunction: f(t, y-vector) returns
the vector of derivatives. -/
abbrev CoupledODEFunction : Type := ℚ → List JVal → Except String (List JVal)

/-- JS String.prototype.toLowerCase over the char list (the core
String.toLower is well-founded-recursive and opaque to kernel
reduction). -/
def toLowerStr (s : String) : String := String.mk (s.toList.map Char.toLower)

/-- Array.prototype.join(", "). -/
def joinComma : List String → String
  | [] => ""
  | [s] => s
  | s :: rest => s ++ ", " ++ joinComma rest

/-- `src/ode-solver/types.ts` NumericalMethod. -/
structure NumericalMethod where
  name : String
  description : String
  order : ℕ
  solve : ODEFunction → ℚ → JVal → ℚ → Except String (ℚ × JVal)

namespace NumericalMethods

/-- `NumericalMethods.euler` (numerical-methods.ts:18-26):
y_new = y + h * f(x, y). -/
def euler : NumericalMethod where
  name := "Euler\x27s Method"
  description := "First-order method, simple but less accurate"
  order := 1
  solve := fun f x y h =>
    match f x y with
    | .error e => .error e
    | .ok k1 => .ok (x + h, JVal.add y (JVal.mul (JVal.fin h) k1))

/-- `NumericalMethods.heun` (numerical-methods.ts:34-45):
predictor-corrector, y_new = y + h * (k1 + k2) / 2. -/
def heun : NumericalMethod where
  name := "Heun\x27s Method"
  description := "Second-order method, improved Euler with better accuracy"
  order := 2
  solve := fun f x y h =>
    match f x y with
    | .error e => .error e
    | .ok k1 =>
      match f (x + h) (JVal.add y (JVal.mul (JVal.fin h) k1)) with
      | .error e => .error e
      | .ok k2 =>
        .ok (x + h, JVal.add y (JVal.div (JVal.mul (JVal.fin h) (JVal.add k1 k2)) (JVal.fin 2)))

/-- `NumericalMethods.rk4` (numerical-methods.ts:57-70): classical
four-stage Runge-Kutta, y_new = y + h * (k1 + 2 k2 + 2 k3 + k4) / 6. -/
def rk4 : NumericalMethod where
  name := "Runge-Kutta 4th Order"
  description := "Fourth-order method, highly accurate and widely used"
  order := 4
  solve := fun f x y h =>
    match f x y with
    | .error e => .error e
    | .ok k1 =>
      match f (x + h / 2) (JVal.add y (JVal.div (JVal.mul (JVal.fin h) k1) (JVal.fin 2))) with
      | .error e => .error e
      | .ok k2 =>
        match f (x + h / 2) (JVal.add y (JVal.div (JVal.mul (JVal.fin h) k2) (JVal.fin 2))) with
        | .error e => .error e
        | .ok k3 =>
          match f (x + h) (JVal.add y (JVal.mul (JVal.fin h) k3)) with
          | .error e => .error e
          | .ok k4 =>
            .ok (x + h, JVal.add y (JVal.div
              (JVal.mul (JVal.fin h)
                (JVal.add
                  (JVal.add (JVal.add k1 (JVal.mul (JVal.fin 2) k2)) (JVal.mul (JVal.fin 2) k3))
                  k4))
              (JVal.fin 6)))

/-- `NumericalMethods.getMethod` (numerical-methods.ts:89-91): lookup by
lowercased key in the static registry euler/heun/rk4. -/
def getMethod (name : String) : Option NumericalMethod :=
  let k := toLowerStr name
  if k = "euler" then some euler
  else if k = "heun" then some heun
  else if k = "rk4" then some rk4
  else none

/-- Result record of validateStepSize. -/
structure StepSizeValidation where
  valid : Bool
  suggested : Option ℚ
  warning : Option String
deriving Repr

/-- `NumericalMethods.validateStepSize` (numerical-methods.ts:107-145).
JS computes numSteps = totalRange / stepSize in floating point; a zero
stepSize gives Infinity (or NaN when totalRange is also 0, and every
NaN comparison is false), so that denominator case is spelled out.
toPrecision(3) formatting of the suggested value is rendered with
toString. -/
def validateStepSize (stepSize : ℚ) (domain : ℚ × ℚ) : StepSizeValidation :=
  let totalRange := |domain.2 - domain.1|
  if stepSize = 0 then
    if totalRange = 0 then { valid := true, suggested := none, warning := none }
    else
      { valid := false, suggested := some (totalRange / 10000),
        warning := some ("Step size too small. Consider using h ≥ " ++
          toString (totalRange / 10000) ++ " for faster computation.") }
  else
    let numSteps := totalRange / stepSize
    if numSteps < 10 then
      { valid := false, suggested := some (totalRange / 20),
        warning := some ("Step size too large. Consider using h ≤ " ++
          toString (totalRange / 20) ++ " for better accuracy.") }
    else if numSteps > 100000 then
      { valid := false, suggested := some (totalRange / 10000),
        warning := some ("Step size too small. Consider using h ≥ " ++
          toString (totalRange / 10000) ++ " for faster computation.") }
    else if numSteps > 50000 then
      { valid := true, suggested := none,
        warning := some ("Large number of steps (" ++ toString numSteps ++
          "). Computation may take some time.") }
    else { valid := true, suggested := none, warning := none }

end NumericalMethods

deriving instance DecidableEq for Except

/-! ## Expression parser string machinery (`src/ode-solver/equation-parser.ts`)

The normalization regexes of `normalizeExpression` and the identifier
scan of `extractVariables` are reimplemented character by character with
JavaScript regex semantics (leftmost match, scan resumes after each
replacement on the original text, `\b` word boundaries on `[A-Za-z0-9_]`). -/

namespace EquationParser

/-- JS regex word character `\w` = `[A-Za-z0-9_]`. -/
def isWordChar (c : Char) : Bool := c.isAlpha || c.isDigit || c == '_'

/-- JS regex whitespace `\s` (the ASCII part; the expressions handled
here contain no exotic unicode spaces). -/
def isSpaceChar (c : Char) : Bool := c == ' ' || c == '\t' || c == '\n' || c == '\r'

/-- String.trim: strip whitespace from both ends. -/
def trimChars (cs : List Char) : List Char :=
  ((cs.dropWhile isSpaceChar).reverse.dropWhile isSpaceChar).reverse

/-- One operand group of the power-rewrite regex: `\w+|\([^)]+\)`.
Returns the matched text and the remaining input. -/
def grabGroup : List Char → Option (List Char × List Char)
  | [] => none
  | '(' :: rest =>
    let inner := rest.takeWhile (fun c => !(c == ')'))
    let rest' := rest.dropWhile (fun c => !(c == ')'))
    match rest', inner with
    | ')' :: rest2, _ :: _ => some ('(' :: (inner ++ [')']), rest2)
    | _, _ => none
  | c :: rest =>
    if isWordChar c then
      some (c :: rest.takeWhile isWordChar, rest.dropWhile isWordChar)
    else none

/-- Can the regex `\b(\w+|\([^)]+\))\s*OP\s*(\w+|\([^)]+\))` match at this
position (given the previous character of the original text)?  Returns
the two groups and the rest of the input after the whole match. -/
def tryPowAt (op : List Char) (prev : Option Char) (cs : List Char) :
    Option (List Char × List Char × List Char) :=
  match cs with
  | [] => none
  | c :: _ =>
    let boundary :=
      if isWordChar c then
        match prev with
        | none => true
        | some p => !isWordChar p
      else if c == '(' then
        match prev with
        | none => false
        | some p => isWordChar p
      else false
    if !boundary then none
    else
      match grabGroup cs with
      | none => none
      | some (g1, r1) =>
        let r2 := r1.dropWhile isSpaceChar
        if r2.take op.length = op then
          let r3 := (r2.drop op.length).dropWhile isSpaceChar
          match grabGroup r3 with
          | none => none
          | some (g2, r4) => some (g1, g2, r4)
        else none

/-- Global-replace scan for the two power rewrites
(`.replace(/\b(\w+|\([^)]+\))\s*\^\s*(\w+|\([^)]+\))/g, 'pow($1, $2)')`
and the same with `**`). Fuel bounds the scan by the input length. -/
def powScanF (op : List Char) : ℕ → Option Char → List Char → List Char
  | 0, _, cs => cs
  | fuel + 1, prev, cs =>
    match cs with
    | [] => []
    | c :: rest =>
      match tryPowAt op prev cs with
      | some (g1, g2, rest') =>
        ('p' :: 'o' :: 'w' :: '(' :: g1) ++ (',' :: ' ' :: g2) ++
          (')' :: powScanF op fuel g2.getLast? rest')
      | none => c :: powScanF op fuel (some c) rest

def powPass (op : List Char) (cs : List Char) : List Char :=
  powScanF op (cs.length + 1) none cs

/-- `.replace(/(\w)\s*\(/g, '$1*(')`: insert explicit multiplication
between a word character and a following parenthesis (this also rewrites
every function application `sin(` into `sin*(`). -/
def starBeforeParenF : ℕ → List Char → List Char
  | 0, cs => cs
  | fuel + 1, cs =>
    match cs with
    | [] => []
    | c :: rest =>
      if isWordChar c then
        match rest.dropWhile isSpaceChar with
        | '(' :: rest2 => c :: '*' :: '(' :: starBeforeParenF fuel rest2
        | _ => c :: starBeforeParenF fuel rest
      else c :: starBeforeParenF fuel rest

/-- `.replace(/\)\s*(\w)/g, ')*$1')`. -/
def starAfterParenF : ℕ → List Char → List Char
  | 0, cs => cs
  | fuel + 1, cs =>
    match cs with
    | [] => []
    | c :: rest =>
      if c == ')' then
        match rest.dropWhile isSpaceChar with
        | w :: rest2 =>
          if isWordChar w then ')' :: '*' :: w :: starAfterParenF fuel rest2
          else c :: starAfterParenF fuel rest
        | [] => c :: starAfterParenF fuel rest
      else c :: starAfterParenF fuel rest

/-- Word boundary after a match: next char absent or not a word char. -/
def boundaryAfter : List Char → Bool
  | [] => true
  | c :: _ => !isWordChar c

/-- `.replace(/\bpi\b/gi, 'pi')`: case-insensitive rewrite of the
constant name to lowercase. -/
def piScanF : ℕ → Option Char → List Char → List Char
  | 0, _, cs => cs
  | fuel + 1, prev, cs =>
    match cs with
    | [] => []
    | c :: rest =>
      let boundaryBefore :=
        match prev with
        | none => true
        | some p => !isWordChar p
      match rest with
      | d :: rest2 =>
        if (c == 'p' || c == 'P') && (d == 'i' || d == 'I') &&
            boundaryBefore && boundaryAfter rest2 then
          'p' :: 'i' :: piScanF fuel (some d) rest2
        else c :: piScanF fuel (some c) rest
      | [] => [c]

/-- `.replace(/\be\b(?!\w)/gi, 'e')`. -/
def eScanF : ℕ → Option Char → List Char → List Char
  | 0, _, cs => cs
  | fuel + 1, prev, cs =>
    match cs with
    | [] => []
    | c :: rest =>
      let boundaryBefore :=
        match prev with
        | none => true
        | some p => !isWordChar p
      if (c == 'e' || c == 'E') && boundaryBefore && boundaryAfter rest then
        'e' :: eScanF fuel (some c) rest
      else c :: eScanF fuel (some c) rest

/-- `.replace(/([+\-*\/])/g, ' $1 ')`: pad the four binary operators
with spaces. -/
def spaceOps (cs : List Char) : List Char :=
  cs.flatMap fun c =>
    if c == '+' || c == '-' || c == '*' || c == '/' then [' ', c, ' '] else [c]

/-- `.replace(/\s+/g, ' ')`: collapse whitespace runs. -/
def collapseWsF : ℕ → List Char → List Char
  | 0, cs => cs
  | fuel + 1, cs =>
    match cs with
    | [] => []
    | c :: rest =>
      if isSpaceChar c then ' ' :: collapseWsF fuel (rest.dropWhile isSpaceChar)
      else c :: collapseWsF fuel rest

/-- `EquationParser.normalizeExpression` (equation-parser.ts:216-238):
trim, rewrite `^` and `**` into pow() calls, insert implicit
multiplication around parentheses, normalize the constants pi and e,
space the binary operators and collapse whitespace. -/
def normalizeExpression (s : String) : String :=
  let cs0 := trimChars s.toList
  let cs1 := powPass ['^'] cs0
  let cs2 := powPass ['*', '*'] cs1
  let cs3 := starBeforeParenF (cs2.length + 1) cs2
  let cs4 := starAfterParenF (cs3.length + 1) cs3
  let cs5 := piScanF (cs4.length + 1) none cs4
  let cs6 := eScanF (cs5.length + 1) none cs5
  let cs7 := spaceOps cs6
  let cs8 := collapseWsF (cs7.length + 1) cs7
  String.mk (trimChars cs8)

/-- `EquationParser.ALLOWED_FUNCTIONS` (equation-parser.ts:14-22). -/
def ALLOWED_FUNCTIONS : List String :=
  ["sin", "cos", "tan", "sec", "csc", "cot",
   "asin", "acos", "atan", "atan2",
   "sinh", "cosh", "tanh",
   "exp", "log", "log10", "log2",
   "sqrt", "cbrt", "pow", "abs",
   "floor", "ceil", "round", "sign",
   "max", "min", "random"]

/-- `EquationParser.ALLOWED_CONSTANTS` (equation-parser.ts:24-26). -/
def ALLOWED_CONSTANTS : List String := ["pi", "PI", "e", "E", "i"]

/-- All matches of `/\b([a-zA-Z_][a-zA-Z0-9_]*)\b/g`: maximal word runs
that start with a letter or underscore (a run starting with a digit can
contain no match, since there is no word boundary inside it). -/
def scanIdentifiersF : ℕ → List Char → List String
  | 0, _ => []
  | fuel + 1, cs =>
    match cs with
    | [] => []
    | c :: rest =>
      if isWordChar c then
        let run := c :: rest.takeWhile isWordChar
        let rest' := rest.dropWhile isWordChar
        if c.isAlpha || c == '_' then String.mk run :: scanIdentifiersF fuel rest'
        else scanIdentifiersF fuel rest'
      else scanIdentifiersF fuel rest

/-- Set-insertion order dedup (JS `Set` keeps first occurrences). -/
def dedupAcc : List String → List String → List String
  | acc, [] => acc.reverse
  | acc, s :: rest =>
    if acc.contains s then dedupAcc acc rest else dedupAcc (s :: acc) rest

/-- Lexicographic order by code units, as JS default `Array.sort`
compares strings. -/
def strLtChars : List Char → List Char → Bool
  | [], [] => false
  | [], _ :: _ => true
  | _ :: _, [] => false
  | a :: as, b :: bs => if a < b then true else if b < a then false else strLtChars as bs

def strLt (a b : String) : Bool := strLtChars a.toList b.toList

/-- Insertion into a lexicographically sorted list. -/
def insertSorted (s : String) : List String → List String
  | [] => [s]
  | x :: xs => if strLt x s then x :: insertSorted s xs else s :: x :: xs

def sortStrings (l : List String) : List String :=
  l.foldl (fun acc s => insertSorted s acc) []

/-- `EquationParser.extractVariables` (equation-parser.ts:244-264):
identifier tokens that are neither allow-listed functions nor
allow-listed constants, deduplicated and sorted. -/
def extractVariables (s : String) : List String :=
  let cs := s.toList
  let idents := scanIdentifiersF (cs.length + 1) cs
  let vars := idents.filter fun v =>
    !(ALLOWED_FUNCTIONS.contains v) && !(ALLOWED_CONSTANTS.contains v)
  sortStrings (dedupAcc [] vars)

end EquationParser

/-! ## The mathjs expression engine

Modelled from the spec: mathjs is an external dependency (the embedded
general-purpose math expression evaluator of section 4.1/9 of the spec);
only the behavior the repository can reach is modelled - a recursive
descent parser for infix arithmetic with the mathjs precedences, and an
evaluator over numbers-or-function-values in which using a function
value as a number is a type error. The repository's normalization pass
rewrites every `name(` into `name*(`, so a function application node can
never be produced from a normalized expression; applying a builtin is
accordingly left as an explicit evaluation error, and the irrational
constants pi and e are mapped to the rational values of their double
approximations. -/

namespace Mathjs

/-- mathjs expression tree (the reachable fragment). -/
inductive MNode where
  | num (v : ℚ)
  | sym (name : String)
  | call (fname : String) (args : List MNode)
  | paren (e : MNode)
  | unaryNeg (e : MNode)
  | bin (op : Char) (a b : MNode)
deriving Repr

open EquationParser (isSpaceChar isWordChar)

def skipWs (cs : List Char) : List Char := cs.dropWhile isSpaceChar

def digitsToNat (ds : List Char) : ℕ :=
  ds.foldl (fun acc c => acc * 10 + (c.toNat - '0'.toNat)) 0

/-- Lex a number literal: `digits+ ('.' digits*)?`. -/
def lexNumber (cs : List Char) : Option (ℚ × List Char) :=
  let ds := cs.takeWhile Char.isDigit
  let rest := cs.dropWhile Char.isDigit
  if ds.isEmpty then none
  else
    match rest with
    | '.' :: rest2 =>
      let fs := rest2.takeWhile Char.isDigit
      let rest3 := rest2.dropWhile Char.isDigit
      some ((digitsToNat ds : ℚ) + (digitsToNat fs : ℚ) / ((10 : ℚ) ^ fs.length), rest3)
    | _ => some ((digitsToNat ds : ℚ), rest)

/-- Lex an identifier: `[A-Za-z_][A-Za-z0-9_]*`. -/
def lexIdent (cs : List Char) : Option (String × List Char) :=
  match cs with
  | c :: rest =>
    if c.isAlpha || c == '_' then
      some (String.mk (c :: rest.takeWhile isWordChar), rest.dropWhile isWordChar)
    else none
  | [] => none

mutual

/-- Additive level: `mulE (('+'|'-') mulE)*`. -/
def parseAddF : ℕ → List Char → Except String (MNode × List Char)
  | 0, _ => .error "Expression too deeply nested"
  | fuel + 1, cs => do
    let (a, rest) ← parseMulF fuel cs
    parseAddLoopF fuel a rest

def parseAddLoopF : ℕ → MNode → List Char → Except String (MNode × List Char)
  | 0, _, _ => .error "Expression too deeply nested"
  | fuel + 1, a, cs =>
    match skipWs cs with
    | '+' :: rest => do
      let (b, rest2) ← parseMulF fuel rest
      parseAddLoopF fuel (MNode.bin '+' a b) rest2
    | '-' :: rest => do
      let (b, rest2) ← parseMulF fuel rest
      parseAddLoopF fuel (MNode.bin '-' a b) rest2
    | _ => .ok (a, cs)

/-- Multiplicative level: `unary (('*'|'/') unary)*`. -/
def parseMulF : ℕ → List Char → Except String (MNode × List Char)
  | 0, _ => .error "Expression too deeply nested"
  | fuel + 1, cs => do
    let (a, rest) ← parseUnaryF fuel cs
    parseMulLoopF fuel a rest

def parseMulLoopF : ℕ → MNode → List Char → Except String (MNode × List Char)
  | 0, _, _ => .error "Expression too deeply nested"
  | fuel + 1, a, cs =>
    match skipWs cs with
    | '*' :: rest => do
      let (b, rest2) ← parseUnaryF fuel rest
      parseMulLoopF fuel (MNode.bin '*' a b) rest2
    | '/' :: rest => do
      let (b, rest2) ← parseUnaryF fuel rest
      parseMulLoopF fuel (MNode.bin '/' a b) rest2
    | _ => .ok (a, cs)

/-- Unary level: `('-'|'+') unary | powE` (in mathjs the power operator
binds tighter than unary minus). -/
def parseUnaryF : ℕ → List Char → Except String (MNode × List Char)
  | 0, _ => .error "Expression too deeply nested"
  | fuel + 1, cs =>
    match skipWs cs with
    | '-' :: rest => do
      let (a, rest2) ← parseUnaryF fuel rest
      .ok (MNode.unaryNeg a, rest2)
    | '+' :: rest => parseUnaryF fuel rest
    | _ => parsePowF fuel cs

/-- Power level: `atom ('^' unary)?`, right associative. -/
def parsePowF : ℕ → List Char → Except String (MNode × List Char)
  | 0, _ => .error "Expression too deeply nested"
  | fuel + 1, cs => do
    let (a, rest) ← parseAtomF fuel cs
    match skipWs rest with
    | '^' :: rest2 => do
      let (b, rest3) ← parseUnaryF fuel rest2
      .ok (MNode.bin '^' a b, rest3)
    | _ => .ok (a, rest)

/-- Atom: number, identifier (a function call when `(` follows
immediately), or parenthesized expression. -/
def parseAtomF : ℕ → List Char → Except String (MNode × List Char)
  | 0, _ => .error "Expression too deeply nested"
  | fuel + 1, cs =>
    match skipWs cs with
    | [] => .error "Unexpected end of expression"
    | '(' :: rest => do
      let (a, rest2) ← parseAddF fuel rest
      match skipWs rest2 with
      | ')' :: rest3 => .ok (MNode.paren a, rest3)
      | _ => .error "Parenthesis ) expected"
    | c :: _ =>
      let cs' := skipWs cs
      match lexNumber cs' with
      | some (v, rest) => .ok (MNode.num v, rest)
      | none =>
        match lexIdent cs' with
        | some (name, rest) =>
          match rest with
          | '(' :: rest2 => do
            let (args, rest3) ← parseArgsF fuel rest2
            .ok (MNode.call name args, rest3)
          | _ => .ok (MNode.sym name, rest)
        | none => .error ("Unexpected character " ++ String.mk [c])

/-- Argument list after `name(`: `expr (',' expr)* ')'`. -/
def parseArgsF : ℕ → List Char → Except String (List MNode × List Char)
  | 0, _ => .error "Expression too deeply nested"
  | fuel + 1, cs => do
    let (a, rest) ← parseAddF fuel cs
    parseArgsLoopF fuel [a] rest

def parseArgsLoopF : ℕ → List MNode → List Char → Except String (List MNode × List Char)
  | 0, _, _ => .error "Expression too deeply nested"
  | fuel + 1, acc, cs =>
    match skipWs cs with
    | ',' :: rest => do
      let (a, rest2) ← parseAddF fuel rest
      parseArgsLoopF fuel (a :: acc) rest2
    | ')' :: rest => .ok (acc.reverse, rest)
    | _ => .error "Parenthesis ) expected"

end

/-- mathjs `parse(text)`: the whole string must be one expression. -/
def mathjsParse (s : String) : Except String MNode := do
  let cs := s.toList
  let (a, rest) ← parseAddF (8 * (cs.length + 1)) cs
  match skipWs rest with
  | [] => .ok a
  | _ => .error "Unexpected part of the expression"

/-- A mathjs runtime value of the reachable fragment: a number, or a
builtin function object (which is what a bare allow-listed function name
evaluates to). -/
inductive MVal where
  | num (v : JVal)
  | func (fname : String)
deriving Repr, DecidableEq

/-- The double approximation of pi, as an exact rational. -/
def piRat : ℚ := 3141592653589793 / 1000000000000000

/-- The double approximation of e, as an exact rational. -/
def eRat : ℚ := 2718281828459045 / 1000000000000000

/-- JS exponentiation on the finite/non-finite abstraction; integer
exponents are exact (0 to a negative power is Infinity), irrational
results of fractional exponents are outside the rational model and are
never evaluated by any theorem below. -/
def jpow : JVal → JVal → JVal
  | JVal.fin a, JVal.fin b =>
    if b.den = 1 then
      if a = 0 && b.num < 0 then JVal.nonfin else JVal.fin (a ^ b.num)
    else JVal.nonfin
  | _, _ => JVal.nonfin

/-- Evaluate one binary operator on two mathjs values; a function value
in an arithmetic position is the type error mathjs raises. -/
def evalBin (op : Char) : MVal → MVal → Except String MVal
  | MVal.num a, MVal.num b =>
    if op == '+' then .ok (MVal.num (JVal.add a b))
    else if op == '-' then .ok (MVal.num (JVal.sub a b))
    else if op == '*' then .ok (MVal.num (JVal.mul a b))
    else if op == '/' then .ok (MVal.num (JVal.div a b))
    else if op == '^' then .ok (MVal.num (jpow a b))
    else .error "Unknown operator"
  | _, _ => .error "Unexpected type of argument in arithmetic operator"

/-- Symbol resolution: the evaluation scope first, then the builtin
namespace (allow-listed function names become function values, the
constants become numbers). -/
def resolveSym (scope : String → Option JVal) (name : String) : Except String MVal :=
  match scope name with
  | some v => .ok (MVal.num v)
  | none =>
    if EquationParser.ALLOWED_FUNCTIONS.contains name then .ok (MVal.func name)
    else if name == "pi" || name == "PI" then .ok (MVal.num (JVal.fin piRat))
    else if name == "e" || name == "E" then .ok (MVal.num (JVal.fin eRat))
    else if name == "i" then .error "complex unit is not modelled"
    else .error ("Undefined symbol " ++ name)

mutual

/-- Evaluate a mathjs tree under a scope. -/
def evalNode (scope : String → Option JVal) : MNode → Except String MVal
  | MNode.num v => .ok (MVal.num (JVal.fin v))
  | MNode.sym name => resolveSym scope name
  | MNode.paren e => evalNode scope e
  | MNode.unaryNeg e => do
    match ← evalNode scope e with
    | MVal.num v => .ok (MVal.num (JVal.neg v))
    | MVal.func _ => .error "Unexpected type of argument in function unaryMinus"
  | MNode.bin op a b => do
    let va ← evalNode scope a
    let vb ← evalNode scope b
    evalBin op va vb
  | MNode.call fname args => do
    let _ ← evalNodes scope args
    .error ("builtin application of " ++ fname ++ " is not modelled")

/-- Evaluate a list of argument trees. -/
def evalNodes (scope : String → Option JVal) : List MNode → Except String (List MVal)
  | [] => .ok []
  | a :: as => do
    let v ← evalNode scope a
    let vs ← evalNodes scope as
    .ok (v :: vs)

end

end Mathjs

/-! ## The equation parser API (`src/ode-solver/equation-parser.ts`) -/

/-- `src/ode-solver/types.ts` ParsedEquation. -/
structure ParsedEquation where
  original : String
  evaluate : ODEFunction
  vars : List String
  valid : Bool
  error : Option String

/-- `src/ode-solver/types.ts` ParsedCoupledEquations. -/
structure ParsedCoupledEquations where
  original : List String
  evaluate : CoupledODEFunction
  vars : List String
  valid : Bool
  error : Option String

namespace EquationParser

/-- The evaluation scope of the scalar evaluator: exactly t and y. -/
def scalarScope (t : ℚ) (y : JVal) : String → Option JVal := fun n =>
  if n == "t" then some (JVal.fin t) else if n == "y" then some y else none

/-- The compiled scalar evaluator (equation-parser.ts:68-74): evaluate
the tree with {t, y} in scope; a thrown evaluation error is rewrapped; a
non-number result (a bare function object, cast `as number`) behaves as
a non-finite number downstream. -/
def compileScalar (tree : Mathjs.MNode) : ODEFunction := fun t y =>
  match Mathjs.evalNode (scalarScope t y) tree with
  | .ok (Mathjs.MVal.num v) => .ok v
  | .ok (Mathjs.MVal.func _) => .ok JVal.nonfin
  | .error m => .error ("Evaluation error: " ++ m)

/-- `EquationParser.parse` (equation-parser.ts:44-107): normalize,
extract variables, reject identifiers other than t and y, parse with
mathjs, and self-test the evaluator at (t,y) = (1,1). -/
def parse (expression : String) : ParsedEquation :=
  let cleanExpression := normalizeExpression expression
  let vars := extractVariables cleanExpression
  let invalidVars := vars.filter fun v => !(v == "t") && !(v == "y")
  if invalidVars.isEmpty then
    match Mathjs.mathjsParse cleanExpression with
    | .error m =>
      { original := expression
        evaluate := fun _ _ => .error "Parse error"
        vars := []
        valid := false
        error := some ("Parse error: " ++ m) }
    | .ok tree =>
      let evaluate := compileScalar tree
      match evaluate 1 (JVal.fin 1) with
      | .ok v =>
        if v.isFinite then
          { original := expression, evaluate := evaluate, vars := vars
            valid := true, error := none }
        else
          { original := expression, evaluate := evaluate, vars := vars
            valid := false
            error := some "Function test failed: Function produces non-finite values" }
      | .error m =>
        { original := expression, evaluate := evaluate, vars := vars
          valid := false, error := some ("Function test failed: " ++ m) }
  else
    { original := expression
      evaluate := fun _ _ => .error "Invalid variables"
      vars := vars
      valid := false
      error := some ("Invalid variables found: " ++ joinComma invalidVars ++
        ". Only \x27t\x27 and \x27y\x27 are allowed.") }

/-- Union of variable lists in set-insertion order. -/
def addAll (acc : List String) (vs : List String) : List String :=
  vs.foldl (fun a v => if a.contains v then a else a ++ [v]) acc

/-- The per-expression loop of parseCoupled: collect variables, then
parse each expression (a mathjs parse failure aborts the whole call). -/
def collectLoop : List String → List String → List Mathjs.MNode →
    Except String (List String × List Mathjs.MNode)
  | [], vars, trees => .ok (vars, trees.reverse)
  | e :: rest, vars, trees =>
    let vars' := addAll vars (extractVariables e)
    match Mathjs.mathjsParse e with
    | .error m => .error m
    | .ok tr => collectLoop rest vars' (tr :: trees)

/-- Does a variable match `/^(t|y\d+)$/`? -/
def matchesCoupledVar (v : String) : Bool :=
  v == "t" ||
    (match v.toList with
     | 'y' :: ds => !ds.isEmpty && ds.all Char.isDigit
     | _ => false)

/-- Context lookup `y1..yN` by position. -/
def yLookupAux : ℕ → List JVal → String → Option JVal
  | _, [], _ => none
  | i, v :: rest, n =>
    if n == "y" ++ toString (i + 1) then some v else yLookupAux (i + 1) rest n

/-- The combined coupled evaluator (equation-parser.ts:169-192): build
the context {t, y1..yN}, evaluate every tree, require every result to
be a finite number. -/
def compileCoupled (trees : List Mathjs.MNode) : CoupledODEFunction := fun t y =>
  let scope := fun n => if n == "t" then some (JVal.fin t) else yLookupAux 0 y n
  trees.mapM fun tree =>
    match Mathjs.evalNode scope tree with
    | .ok (Mathjs.MVal.num (JVal.fin q)) => .ok (JVal.fin q)
    | .ok (Mathjs.MVal.num JVal.nonfin) => .error "Evaluation failed: Non-numeric result"
    | .ok (Mathjs.MVal.func _) => .error "Evaluation failed: Non-numeric result"
    | .error m => .error ("Evaluation failed: " ++ m)

/-- `EquationParser.parseCoupled` (equation-parser.ts:126-210). -/
def parseCoupled (expressions : List String) : ParsedCoupledEquations :=
  if expressions.isEmpty then
    { original := []
      vars := []
      valid := false
      error := some "No equations provided"
      evaluate := fun _ _ => .error "No equations" }
  else
    let cleanExpressions := expressions.map normalizeExpression
    match collectLoop cleanExpressions [] [] with
    | .error m =>
      { original := expressions
        vars := []
        valid := false
        error := some ("Parse error: " ++ m)
        evaluate := fun _ _ => .error "Parse error" }
    | .ok (vars, trees) =>
      let variableArray := sortStrings vars
      match variableArray.find? (fun v => !matchesCoupledVar v) with
      | some bad =>
        { original := expressions
          vars := variableArray
          valid := false
          error := some ("Invalid variable \x27" ++ bad ++
            "\x27. Expected format: t, y1, y2, y3, etc.")
          evaluate := fun _ _ => .error "Invalid variables" }
      | none =>
        { original := expressions
          vars := variableArray
          valid := true
          error := none
          evaluate := compileCoupled trees }

/-- One entry of the `dangerousPatterns` list of validateExpression:
the regex source text (used in the error message), the literal text the
regex matches, and whether the match is case-insensitive. -/
def dangerousPatterns : List (String × String × Bool) :=
  [("import", "import", true),
   ("require", "require", true),
   ("eval", "eval", true),
   ("function", "function", true),
   ("while", "while", true),
   ("for", "for", true),
   ("if", "if", true),
   ("var", "var", true),
   ("let", "let", true),
   ("const", "const", true),
   ("=>", "=>", false),
   ("\\.\\.", "..", false),
   ("__", "__", false),
   ("prototype", "prototype", true)]

def startsWithChars : List Char → List Char → Bool
  | [], _ => true
  | _ :: _, [] => false
  | a :: as, b :: bs => a == b && startsWithChars as bs

/-- Substring test (what an unanchored regex of plain characters
matches). -/
def containsSubF : ℕ → List Char → List Char → Bool
  | 0, _, _ => false
  | fuel + 1, needle, hay =>
    startsWithChars needle hay ||
      (match hay with
       | [] => false
       | _ :: rest => containsSubF fuel needle rest)

def toLowerChars (cs : List Char) : List Char := cs.map Char.toLower

/-- Does the pattern (a plain-text regex) match somewhere in e? -/
def patternHits (needle : String) (ci : Bool) (e : String) : Bool :=
  if ci then
    containsSubF (e.toList.length + 1) (toLowerChars needle.toList) (toLowerChars e.toList)
  else containsSubF (e.toList.length + 1) needle.toList e.toList

/-- Validation result record of validateExpression. -/
structure ValidationResult where
  valid : Bool
  error : Option String
deriving Repr, DecidableEq

/-- `EquationParser.validateExpression` (equation-parser.ts:271-307):
reject an expression on the first dangerous pattern matching it. -/
def validateExpression (expression : String) : ValidationResult :=
  match dangerousPatterns.findSome? (fun p =>
      if patternHits p.2.1 p.2.2 expression then some p.1 else none) with
  | some src =>
    { valid := false, error := some ("Potentially unsafe expression detected: " ++ src) }
  | none => { valid := true, error := none }

end EquationParser

/-! ## The solvers (`src/unnamed/part_005`, ode-solver.ts) -/

/-- `src/ode-solver/types.ts` ODEOptions. -/
structure ODEOptions where
  t0 : ℚ
  y0 : ℚ
  tEnd : ℚ
  stepSize : ℚ
  method : Option String := none
  maxIterations : Option ℕ := none
deriving Repr, DecidableEq

/-- `src/ode-solver/types.ts` SolutionPoint. -/
structure SolutionPoint where
  t : ℚ
  y : JVal
  dydt : JVal
deriving Repr, DecidableEq

/-- Metadata of an ODESolution (computationTime is wall clock and not
modelled). -/
structure ODEMetadata where
  totalPoints : ℕ
  stepSize : ℚ
  domain : ℚ × ℚ
  range : JVal × JVal
deriving Repr, DecidableEq

/-- `src/ode-solver/types.ts` ODESolution (without computationTime). -/
structure ODESolution where
  points : List SolutionPoint
  method : String
  success : Bool
  error : Option String
  metadata : ODEMetadata
deriving Repr, DecidableEq

/-- JS String.prototype.trim modelled over the char list. -/
def strTrim (s : String) : String := String.mk (EquationParser.trimChars s.toList)

/-- The last-step adjustment of both integration loops
(part_005:200-206 and part_005:538-544): shrink the signed step to land
exactly on tEnd when the next step would overshoot it. -/
def adjStep (tEnd h t : ℚ) (isForward : Bool) : ℚ :=
  if isForward = true ∧ t + h > tEnd then tEnd - t
  else if isForward = false ∧ t + h < tEnd then tEnd - t
  else h

namespace ODESolver

/-- `ODESolver.validateOptions` (part_005:271-309). The
Number.isFinite(t0/y0/tEnd/stepSize) guard is unrepresentable over exact
rationals (they are always finite) and therefore always passes here.
The final consultation of the step-size advisory turns an advisory
rejection with a non-empty warning into a hard validation failure. -/
def validateOptions (o : ODEOptions) : EquationParser.ValidationResult :=
  if o.stepSize ≤ 0 then
    { valid := false, error := some "Step size must be positive" }
  else if o.stepSize > |o.tEnd - o.t0| then
    { valid := false, error := some "Step size cannot be larger than the integration domain" }
  else if o.t0 = o.tEnd then
    { valid := false, error := some "Start and end t values cannot be equal" }
  else if |o.tEnd - o.t0| > 1000 then
    { valid := false, error := some "Integration domain too large (|tEnd - t0| > 1000)" }
  else if |o.y0| > 1000000 then
    { valid := false, error := some "Initial y value too large (|y0| > 1e6)" }
  else
    let sv := NumericalMethods.validateStepSize o.stepSize (o.t0, o.tEnd)
    match sv.warning with
    | some w =>
      if !sv.valid && !(strTrim w == "") then { valid := false, error := some w }
      else { valid := true, error := none }
    | none => { valid := true, error := none }

/-- The error text of the iteration-cap failure (part_005:246). -/
def maxIterMsg (maxIterations : ℕ) : String :=
  "Maximum iterations (" ++ toString maxIterations ++ ") reached without convergence"

/-- The while loop of `ODESolver.numericalSolve` (part_005:193-247).
The fuel argument r stands for maxIterations - iterations, so the loop
guard `iterations < maxIterations` failing is the fuel running out, and
on the terminating entry (the break when t has reached tEnd) the
post-loop check `iterations >= maxIterations` has tripped exactly when
r = 0.  Step errors are wrapped `Integration failed at step N: ...` as
in the inner try/catch. -/
def integLoop (method : NumericalMethod) (f : ODEFunction) (tEnd h : ℚ) (isForward : Bool)
    (maxIterations : ℕ) :
    ℚ → JVal → List SolutionPoint → ℕ → Except String (List SolutionPoint)
  | _, _, _, 0 => .error (maxIterMsg maxIterations)
  | t, y, pts, r + 1 =>
    if (isForward = true ∧ t ≥ tEnd) ∨ (isForward = false ∧ t ≤ tEnd) then
      if r = 0 then .error (maxIterMsg maxIterations) else .ok pts
    else
      match method.solve f t y (adjStep tEnd h t isForward) with
      | .error e =>
        .error ("Integration failed at step " ++ toString (maxIterations - r) ++ ": " ++ e)
      | .ok (newT, newY) =>
        if !newY.isFinite then
          .error ("Integration failed at step " ++ toString (maxIterations - r) ++
            ": Non-finite values encountered at t=" ++ toString t)
        else if newY.absGt 10000000000 then
          .error ("Integration failed at step " ++ toString (maxIterations - r) ++
            ": Solution became unstable (|y| > 1e10) at t=" ++ toString newT)
        else
          match f newT newY with
          | .error e =>
            .error ("Integration failed at step " ++ toString (maxIterations - r) ++ ": " ++ e)
          | .ok dydt =>
            if !dydt.isFinite then
              .error ("Integration failed at step " ++ toString (maxIterations - r) ++
                ": Derivative became non-finite at t=" ++ toString newT)
            else
              integLoop method f tEnd h isForward maxIterations newT newY
                (pts ++ [⟨newT, newY, dydt⟩]) r

/-- Math.min/Math.max over the y values of the recorded points
(Math.min() of an empty spread is Infinity; points are never empty). -/
def rangeOf (pts : List SolutionPoint) : JVal × JVal :=
  match pts with
  | [] => (JVal.nonfin, JVal.nonfin)
  | p :: rest =>
    (rest.foldl (fun acc q => JVal.jmin acc q.y) p.y,
     rest.foldl (fun acc q => JVal.jmax acc q.y) p.y)

/-- `ODESolver.numericalSolve` (part_005:168-265): record the initial
point (its derivative is not finiteness-checked), run the loop, then
package the successful trajectory with its metadata. An exception from
the initial f(t0, y0) call happens outside the loop try/catch and
propagates unwrapped. -/
def numericalSolve (f : ODEFunction) (options : ODEOptions) (method : NumericalMethod) :
    Except String ODESolution :=
  let maxIterations := options.maxIterations.getD 1000000
  let h := if options.tEnd > options.t0 then |options.stepSize| else -|options.stepSize|
  let isForward : Bool := options.tEnd > options.t0
  match f options.t0 (JVal.fin options.y0) with
  | .error e => .error e
  | .ok dydt0 =>
    let pts0 : List SolutionPoint := [⟨options.t0, JVal.fin options.y0, dydt0⟩]
    match integLoop method f options.tEnd h isForward maxIterations
        options.t0 (JVal.fin options.y0) pts0 maxIterations with
    | .error e => .error e
    | .ok pts =>
      .ok { points := pts
            method := method.name
            success := true
            error := none
            metadata := { totalPoints := pts.length, stepSize := options.stepSize,
                          domain := (options.t0, options.tEnd), range := rangeOf pts } }

/-- A failed ODESolution as built by the early returns and catch blocks
of `solve`/`solveWithFunction` (empty points, range [0,0]). -/
def failRecord (options : ODEOptions) (methodName : String) (msg : String) : ODESolution :=
  { points := []
    method := methodName
    success := false
    error := some msg
    metadata := { totalPoints := 0, stepSize := options.stepSize,
                  domain := (options.t0, options.tEnd), range := (JVal.fin 0, JVal.fin 0) } }

/-- `ODESolver.solveWithFunction` (part_005:94-162): validate options,
resolve the method, run the integration; a thrown integration failure is
caught and wrapped as a failed Solution with a Computation error
message. -/
def solveWithFunction (f : ODEFunction) (options : ODEOptions) : ODESolution :=
  let validation := validateOptions options
  if validation.valid then
    let methodName := options.method.getD "rk4"
    match NumericalMethods.getMethod methodName with
    | none => failRecord options methodName ("Unknown numerical method: " ++ methodName)
    | some method =>
      match numericalSolve f options method with
      | .ok sol => sol
      | .error e => failRecord options methodName ("Computation error: " ++ e)
  else
    failRecord options (options.method.getD "rk4")
      (validation.error.getD "Unknown validation error")

/-- `ODESolver.solve` (part_005:46-85): parse, fail with the parse error
on an invalid equation, otherwise delegate to solveWithFunction. -/
def solve (expression : String) (options : ODEOptions) : ODESolution :=
  let parsedEq := EquationParser.parse expression
  if parsedEq.valid then solveWithFunction parsedEq.evaluate options
  else
    failRecord options (options.method.getD "rk4")
      (parsedEq.error.getD "Unknown parsing error")

/-- `ODESolver.validateEquation` (part_005:342-345). -/
def validateEquation (expression : String) : EquationParser.ValidationResult :=
  let parsed := EquationParser.parse expression
  { valid := parsed.valid
    error :=
      match parsed.error with
      | some e => if !(strTrim e == "") then some e else none
      | none => none }

end ODESolver

/-! ### Coupled solver -/

/-- `src/ode-solver/types.ts` CoupledODEOptions. -/
structure CoupledODEOptions where
  t0 : ℚ
  y0 : List ℚ
  tEnd : ℚ
  stepSize : ℚ
  method : Option String := none
  maxIterations : Option ℕ := none
deriving Repr, DecidableEq

/-- `src/ode-solver/types.ts` CoupledSolutionPoint. -/
structure CoupledSolutionPoint where
  t : ℚ
  y : List JVal
  dydt : List JVal
deriving Repr, DecidableEq

/-- Metadata of a CoupledODESolution: one range per state component. -/
structure CoupledODEMetadata where
  totalPoints : ℕ
  stepSize : ℚ
  domain : ℚ × ℚ
  ranges : List (JVal × JVal)
deriving Repr, DecidableEq

/-- `src/ode-solver/types.ts` CoupledODESolution (without
computationTime). -/
structure CoupledODESolution where
  points : List CoupledSolutionPoint
  method : String
  success : Bool
  error : Option String
  metadata : CoupledODEMetadata
deriving Repr, DecidableEq

/-- `k[i] ?? 0`: index into a derivative vector, a missing component
defaulting to 0 (nullish coalescing catches only undefined, i.e. an
out-of-range index; a NaN component passes through as NaN). -/
def getPad (k : List JVal) (i : ℕ) : JVal := (k.get? i).getD (JVal.fin 0)

/-- `y.map((yi, i) => g i yi)`. -/
def mapIdxAux (g : ℕ → JVal → JVal) : ℕ → List JVal → List JVal
  | _, [] => []
  | i, v :: rest => g i v :: mapIdxAux g (i + 1) rest

/-- `src/ode-solver/types.ts` CoupledNumericalMethod. -/
structure CoupledNumericalMethod where
  name : String
  description : String
  order : ℕ
  solve : CoupledODEFunction → ℚ → List JVal → ℚ → Except String (ℚ × List JVal)

namespace CoupledNumericalMethods

/-- `CoupledNumericalMethods.euler` (numerical-methods.ts:208-217):
newY = y.map((yi, i) => yi + h * (k1[i] ?? 0)). -/
def euler : CoupledNumericalMethod where
  name := "Euler\x27s Method (Coupled)"
  description := "First-order method for coupled systems"
  order := 1
  solve := fun f x y h =>
    match f x y with
    | .error e => .error e
    | .ok k1 =>
      .ok (x + h, mapIdxAux (fun i yi => JVal.add yi (JVal.mul (JVal.fin h) (getPad k1 i))) 0 y)

/-- `CoupledNumericalMethods.heun` (numerical-methods.ts:222-234). -/
def heun : CoupledNumericalMethod where
  name := "Heun\x27s Method (Coupled)"
  description := "Second-order method for coupled systems"
  order := 2
  solve := fun f x y h =>
    match f x y with
    | .error e => .error e
    | .ok k1 =>
      match f (x + h)
          (mapIdxAux (fun i yi => JVal.add yi (JVal.mul (JVal.fin h) (getPad k1 i))) 0 y) with
      | .error e => .error e
      | .ok k2 =>
        .ok (x + h, mapIdxAux (fun i yi =>
          JVal.add yi (JVal.div (JVal.mul (JVal.fin h) (JVal.add (getPad k1 i) (getPad k2 i)))
            (JVal.fin 2))) 0 y)

/-- `CoupledNumericalMethods.rk4` (numerical-methods.ts:239-258). -/
def rk4 : CoupledNumericalMethod where
  name := "Runge-Kutta 4th Order (Coupled)"
  description := "Fourth-order method for coupled systems"
  order := 4
  solve := fun f x y h =>
    match f x y with
    | .error e => .error e
    | .ok k1 =>
      match f (x + h / 2) (mapIdxAux (fun i yi =>
          JVal.add yi (JVal.div (JVal.mul (JVal.fin h) (getPad k1 i)) (JVal.fin 2))) 0 y) with
      | .error e => .error e
      | .ok k2 =>
        match f (x + h / 2) (mapIdxAux (fun i yi =>
            JVal.add yi (JVal.div (JVal.mul (JVal.fin h) (getPad k2 i)) (JVal.fin 2))) 0 y) with
        | .error e => .error e
        | .ok k3 =>
          match f (x + h) (mapIdxAux (fun i yi =>
              JVal.add yi (JVal.mul (JVal.fin h) (getPad k3 i))) 0 y) with
          | .error e => .error e
          | .ok k4 =>
            .ok (x + h, mapIdxAux (fun i yi =>
              JVal.add yi (JVal.div
                (JVal.mul (JVal.fin h)
                  (JVal.add
                    (JVal.add
                      (JVal.add (getPad k1 i) (JVal.mul (JVal.fin 2) (getPad k2 i)))
                      (JVal.mul (JVal.fin 2) (getPad k3 i)))
                    (getPad k4 i)))
                (JVal.fin 6))) 0 y)

/-- `CoupledNumericalMethods.getMethod` (numerical-methods.ts:274-276). -/
def getMethod (name : String) : Option CoupledNumericalMethod :=
  let k := toLowerStr name
  if k = "euler" then some euler
  else if k = "heun" then some heun
  else if k = "rk4" then some rk4
  else none

end CoupledNumericalMethods

namespace CoupledODESolver

/-- `CoupledODESolver.validateOptions` (part_005:611-651). Identical to
the scalar checks generalized to the y0 array - and, unlike the scalar
solver, it does NOT consult the step-size advisory at the end. -/
def validateOptions (o : CoupledODEOptions) : EquationParser.ValidationResult :=
  if o.y0.isEmpty then
    { valid := false, error := some "y0 must be a non-empty array" }
  else if o.stepSize ≤ 0 then
    { valid := false, error := some "Step size must be positive" }
  else if o.stepSize > |o.tEnd - o.t0| then
    { valid := false, error := some "Step size cannot be larger than the integration domain" }
  else if o.t0 = o.tEnd then
    { valid := false, error := some "Start and end t values cannot be equal" }
  else if |o.tEnd - o.t0| > 1000 then
    { valid := false, error := some "Integration domain too large (|tEnd - t0| > 1000)" }
  else if o.y0.any (fun yi => decide (|yi| > 1000000)) then
    { valid := false, error := some "Initial y values too large (|y0[i]| > 1e6)" }
  else { valid := true, error := none }

/-- The while loop of `CoupledODESolver.numericalSolve`
(part_005:531-585), mirroring the scalar loop with componentwise
finiteness and instability checks. -/
def integLoop (method : CoupledNumericalMethod) (f : CoupledODEFunction) (tEnd h : ℚ)
    (isForward : Bool) (maxIterations : ℕ) :
    ℚ → List JVal → List CoupledSolutionPoint → ℕ → Except String (List CoupledSolutionPoint)
  | _, _, _, 0 => .error (ODESolver.maxIterMsg maxIterations)
  | t, y, pts, r + 1 =>
    if (isForward = true ∧ t ≥ tEnd) ∨ (isForward = false ∧ t ≤ tEnd) then
      if r = 0 then .error (ODESolver.maxIterMsg maxIterations) else .ok pts
    else
      match method.solve f t y (adjStep tEnd h t isForward) with
      | .error e =>
        .error ("Integration failed at step " ++ toString (maxIterations - r) ++ ": " ++ e)
      | .ok (newT, newY) =>
        if newY.any (fun yi => !yi.isFinite) then
          .error ("Integration failed at step " ++ toString (maxIterations - r) ++
            ": Non-finite values encountered at t=" ++ toString t)
        else if newY.any (fun yi => yi.absGt 10000000000) then
          .error ("Integration failed at step " ++ toString (maxIterations - r) ++
            ": Solution became unstable at t=" ++ toString newT)
        else
          match f newT newY with
          | .error e =>
            .error ("Integration failed at step " ++ toString (maxIterations - r) ++ ": " ++ e)
          | .ok dydt =>
            if dydt.any (fun d => !d.isFinite) then
              .error ("Integration failed at step " ++ toString (maxIterations - r) ++
                ": Derivative became non-finite at t=" ++ toString newT)
            else
              integLoop method f tEnd h isForward maxIterations newT newY
                (pts ++ [⟨newT, newY, dydt⟩]) r

/-- Per-component min/max ranges of the recorded points
(part_005:588-592): component i ranges over p.y[i] ?? 0. -/
def rangesOf (n : ℕ) (pts : List CoupledSolutionPoint) : List (JVal × JVal) :=
  (List.range n).map fun i =>
    match pts.map (fun p => getPad p.y i) with
    | [] => (JVal.nonfin, JVal.nonfin)
    | v :: rest =>
      (rest.foldl JVal.jmin v, rest.foldl JVal.jmax v)

/-- `CoupledODESolver.numericalSolve` (part_005:506-605). -/
def numericalSolve (f : CoupledODEFunction) (options : CoupledODEOptions)
    (method : CoupledNumericalMethod) : Except String CoupledODESolution :=
  let maxIterations := options.maxIterations.getD 1000000
  let h := if options.tEnd > options.t0 then |options.stepSize| else -|options.stepSize|
  let isForward : Bool := options.tEnd > options.t0
  let y0v := options.y0.map JVal.fin
  match f options.t0 y0v with
  | .error e => .error e
  | .ok dydt0 =>
    let pts0 : List CoupledSolutionPoint := [⟨options.t0, y0v, dydt0⟩]
    match integLoop method f options.tEnd h isForward maxIterations
        options.t0 y0v pts0 maxIterations with
    | .error e => .error e
    | .ok pts =>
      .ok { points := pts
            method := method.name
            success := true
            error := none
            metadata := { totalPoints := pts.length, stepSize := options.stepSize,
                          domain := (options.t0, options.tEnd),
                          ranges := rangesOf options.y0.length pts } }

/-- A failed CoupledODESolution (empty points, one [0,0] range per
initial component). -/
def failRecord (options : CoupledODEOptions) (methodName : String) (msg : String) :
    CoupledODESolution :=
  { points := []
    method := methodName
    success := false
    error := some msg
    metadata := { totalPoints := 0, stepSize := options.stepSize,
                  domain := (options.t0, options.tEnd),
                  ranges := options.y0.map (fun _ => (JVal.fin 0, JVal.fin 0)) } }

/-- `CoupledODESolver.solveWithFunction` (part_005:432-500). -/
def solveWithFunction (f : CoupledODEFunction) (options : CoupledODEOptions) :
    CoupledODESolution :=
  let validation := validateOptions options
  if validation.valid then
    let methodName := options.method.getD "rk4"
    match CoupledNumericalMethods.getMethod methodName with
    | none => failRecord options methodName ("Unknown numerical method: " ++ methodName)
    | some method =>
      match numericalSolve f options method with
      | .ok sol => sol
      | .error e => failRecord options methodName ("Computation error: " ++ e)
  else
    failRecord options (options.method.getD "rk4")
      (validation.error.getD "Unknown validation error")

/-- `CoupledODESolver.solve` (part_005:384-423). -/
def solve (expressions : List String) (options : CoupledODEOptions) : CoupledODESolution :=
  let parsedEqs := EquationParser.parseCoupled expressions
  if parsedEqs.valid then solveWithFunction parsedEqs.evaluate options
  else
    failRecord options (options.method.getD "rk4")
      (parsedEqs.error.getD "Unknown parsing error")

end CoupledODESolver

/-! ## Concrete instances used by witnesses and counterexamples -/

/-- dy/dt = t + y. -/
def fLin : ODEFunction := fun t y => .ok (JVal.add (JVal.fin t) y)

/-- dy/dt = 0. -/
def fZero : ODEFunction := fun _ _ => .ok (JVal.fin 0)

/-- A derivative of constant magnitude 1e12, driving y past the 1e10
instability bound in one step. -/
def fBig : ODEFunction := fun _ _ => .ok (JVal.fin 1000000000000)

/-- A coupled evaluator that always returns the 1-vector [1], regardless
of the state length. -/
def fOneC : CoupledODEFunction := fun _ _ => .ok [JVal.fin 1]

/-- A coupled evaluator that always returns [0]. -/
def fZeroC : CoupledODEFunction := fun _ _ => .ok [JVal.fin 0]

/-- Wraps a pure rational right-hand side as an evaluator (finite in,
finite out). -/
def liftPure (g : ℚ → ℚ → ℚ) : ODEFunction := fun t y =>
  match y with
  | JVal.fin q => .ok (JVal.fin (g t q))
  | JVal.nonfin => .ok JVal.nonfin

/-- t0=0, y0=1, tEnd=1, h=0.1: the standard 11-point unit-interval
solve. -/
def optsUnit : ODEOptions :=
  { t0 := 0, y0 := 1, tEnd := 1, stepSize := 1/10, method := some "rk4",
    maxIterations := some 100 }

/-- Step size equal to the whole domain length. -/
def optsDomainStep : ODEOptions := { t0 := 0, y0 := 0, tEnd := 1, stepSize := 1 }

/-- Step size half the domain (2 steps, fails the 10-step advisory). -/
def optsHalf : ODEOptions := { t0 := 0, y0 := 0, tEnd := 1, stepSize := 1/2 }

/-- Same advisory-failing step for the coupled solver. -/
def coptsHalf : CoupledODEOptions :=
  { t0 := 0, y0 := [0], tEnd := 1, stepSize := 1/2, method := some "euler",
    maxIterations := some 50 }

/-- Two state components, for the length-mismatch counterexample. -/
def coptsPair : CoupledODEOptions :=
  { t0 := 0, y0 := [0, 0], tEnd := 1, stepSize := 1/10, method := some "euler",
    maxIterations := some 50 }

/-- Unit solve needing 10 accepted steps, capped at exactly 11
iterations: the terminating entry trips the cap. -/
def optsCap11 : ODEOptions :=
  { t0 := 0, y0 := 1, tEnd := 1, stepSize := 1/10, method := some "euler",
    maxIterations := some 11 }

/-- The same solve with one extra iteration of budget. -/
def optsCap12 : ODEOptions :=
  { t0 := 0, y0 := 1, tEnd := 1, stepSize := 1/10, method := some "euler",
    maxIterations := some 12 }

/-- Options for the string-based scalar solve of sin(t). -/
def optsSin : ODEOptions := { t0 := 0, y0 := 0, tEnd := 1, stepSize := 1/10 }

theorem adjStep_forward_le (tEnd h t : ℚ) : t + adjStep tEnd h t true ≤ tEnd := by
  unfold adjStep
  by_cases hc : t + h > tEnd
  · simp [hc]
  · simp [hc]; linarith [not_lt.mp hc]

theorem adjStep_backward_ge (tEnd h t : ℚ) : tEnd ≤ t + adjStep tEnd h t false := by
  unfold adjStep
  by_cases hc : t + h < tEnd
  · simp [hc]
  · simp [hc]; linarith [not_lt.mp hc]

/-! ## Helper lemmas -/

namespace JVal

theorem add_fin_left_inv {q : ℚ} {v : JVal} {r : ℚ} :
    add (fin q) v = fin r → v = fin (r - q) := by
  cases v with
  | fin b => simp [add]; rintro rfl; ring
  | nonfin => simp [add]

theorem mul_fin_of_ne {h : ℚ} {v : JVal} (hh : h ≠ 0) {r : ℚ} :
    mul (fin h) v = fin r → v = fin (r / h) := by
  cases v with
  | fin b => simp [mul]; rintro rfl; field_simp
  | nonfin => simp [mul]

theorem add_isFinite_right {a : JVal} {v : JVal} :
    (add a v).isFinite = true → v.isFinite = true := by
  cases a <;> cases v <;> simp [add, isFinite]

theorem mul_isFinite_right {a : JVal} {v : JVal} :
    (mul a v).isFinite = true → v.isFinite = true := by
  cases a <;> cases v <;> simp [mul, isFinite]

theorem div_isFinite_num {a b : JVal} :
    (div a b).isFinite = true → a.isFinite = true := by
  cases a with
  | fin q => simp [isFinite]
  | nonfin => cases b <;> simp [div, isFinite]

theorem add_isFinite_left {a v : JVal} :
    (add a v).isFinite = true → a.isFinite = true := by
  cases a <;> cases v <;> simp [add, isFinite]

theorem fin_of_isFinite {v : JVal} (h : v.isFinite = true) : ∃ q, v = fin q := by
  cases v with
  | fin q => exact ⟨q, rfl⟩
  | nonfin => simp [isFinite] at h

end JVal

namespace NumericalMethods

theorem getMethod_eq {s : String} {m : NumericalMethod} (h : getMethod s = some m) :
    m = euler ∨ m = heun ∨ m = rk4 := by
  unfold getMethod at h
  simp only at h
  split_ifs at h <;> simp_all

theorem euler_solve_fst {f : ODEFunction} {x : ℚ} {y : JVal} {h : ℚ} {p : ℚ × JVal}
    (hp : euler.solve f x y h = .ok p) : p.1 = x + h := by
  cases hf : f x y with
  | error e => simp [euler, hf] at hp
  | ok k1 =>
    simp only [euler, hf, Except.ok.injEq] at hp
    rw [← hp]

theorem heun_solve_fst {f : ODEFunction} {x : ℚ} {y : JVal} {h : ℚ} {p : ℚ × JVal}
    (hp : heun.solve f x y h = .ok p) : p.1 = x + h := by
  cases hf : f x y with
  | error e => simp [heun, hf] at hp
  | ok k1 =>
    cases hf2 : f (x + h) (JVal.add y (JVal.mul (JVal.fin h) k1)) with
    | error e => simp [heun, hf, hf2] at hp
    | ok k2 =>
      simp only [heun, hf, hf2, Except.ok.injEq] at hp
      rw [← hp]

theorem rk4_solve_fst {f : ODEFunction} {x : ℚ} {y : JVal} {h : ℚ} {p : ℚ × JVal}
    (hp : rk4.solve f x y h = .ok p) : p.1 = x + h := by
  cases hf : f x y with
  | error e => simp [rk4, hf] at hp
  | ok k1 =>
    cases hf2 : f (x + h / 2) (JVal.add y (JVal.div (JVal.mul (JVal.fin h) k1) (JVal.fin 2))) with
    | error e => simp [rk4, hf, hf2] at hp
    | ok k2 =>
      cases hf3 : f (x + h / 2)
          (JVal.add y (JVal.div (JVal.mul (JVal.fin h) k2) (JVal.fin 2))) with
      | error e => simp [rk4, hf, hf2, hf3] at hp
      | ok k3 =>
        cases hf4 : f (x + h) (JVal.add y (JVal.mul (JVal.fin h) k3)) with
        | error e => simp [rk4, hf, hf2, hf3, hf4] at hp
        | ok k4 =>
          simp only [rk4, hf, hf2, hf3, hf4, Except.ok.injEq] at hp
          rw [← hp]

/-- Every registry method reports the new t as t + h. -/
theorem getMethod_solve_fst {s : String} {m : NumericalMethod} (hm : getMethod s = some m)
    {f : ODEFunction} {x : ℚ} {y : JVal} {h : ℚ} {p : ℚ × JVal}
    (hp : m.solve f x y h = .ok p) : p.1 = x + h := by
  rcases getMethod_eq hm with rfl | rfl | rfl
  · exact euler_solve_fst hp
  · exact heun_solve_fst hp
  · exact rk4_solve_fst hp

/-- If a registry method produces a finite new y, the first derivative
evaluation f(x, y) succeeded with a finite value. -/
theorem getMethod_solve_k1_finite {s : String} {m : NumericalMethod} (hm : getMethod s = some m)
    {f : ODEFunction} {x : ℚ} {y : JVal} {h : ℚ} {p : ℚ × JVal}
    (hp : m.solve f x y h = .ok p) (hfin : p.2.isFinite = true) :
    ∃ k1, f x y = .ok k1 ∧ k1.isFinite = true := by
  rcases getMethod_eq hm with rfl | rfl | rfl
  · cases hf : f x y with
    | error e => simp [euler, hf] at hp
    | ok k1 =>
      simp only [euler, hf, Except.ok.injEq] at hp
      rw [← hp] at hfin
      exact ⟨k1, rfl, JVal.mul_isFinite_right (JVal.add_isFinite_right hfin)⟩
  · cases hf : f x y with
    | error e => simp [heun, hf] at hp
    | ok k1 =>
      cases hf2 : f (x + h) (JVal.add y (JVal.mul (JVal.fin h) k1)) with
      | error e => simp [heun, hf, hf2] at hp
      | ok k2 =>
        simp only [heun, hf, hf2, Except.ok.injEq] at hp
        rw [← hp] at hfin
        exact ⟨k1, rfl, JVal.add_isFinite_left
          (JVal.mul_isFinite_right (JVal.div_isFinite_num (JVal.add_isFinite_right hfin)))⟩
  · cases hf : f x y with
    | error e => simp [rk4, hf] at hp
    | ok k1 =>
      cases hf2 : f (x + h / 2)
          (JVal.add y (JVal.div (JVal.mul (JVal.fin h) k1) (JVal.fin 2))) with
      | error e => simp [rk4, hf, hf2] at hp
      | ok k2 =>
        cases hf3 : f (x + h / 2)
            (JVal.add y (JVal.div (JVal.mul (JVal.fin h) k2) (JVal.fin 2))) with
        | error e => simp [rk4, hf, hf2, hf3] at hp
        | ok k3 =>
          cases hf4 : f (x + h) (JVal.add y (JVal.mul (JVal.fin h) k3)) with
          | error e => simp [rk4, hf, hf2, hf3, hf4] at hp
          | ok k4 =>
            simp only [rk4, hf, hf2, hf3, hf4, Except.ok.injEq] at hp
            rw [← hp] at hfin
            exact ⟨k1, rfl, JVal.add_isFinite_left (JVal.add_isFinite_left
              (JVal.add_isFinite_left (JVal.mul_isFinite_right
                (JVal.div_isFinite_num (JVal.add_isFinite_right hfin)))))⟩

end NumericalMethods

namespace ODESolver

/-- Shape invariant of a successful scalar integration loop run: the
head of the accumulated trajectory is preserved, every newly appended
point passed the finiteness and stability checks, and the loop can only
break with t exactly equal to tEnd. -/
theorem integLoop_shape (m : NumericalMethod) (f : ODEFunction) (tEnd h : ℚ) (fwd : Bool)
    (maxIter : ℕ)
    (hfst : ∀ (t : ℚ) (y : JVal) (hh : ℚ) (p : ℚ × JVal),
      m.solve f t y hh = .ok p → p.1 = t + hh) :
    ∀ (r : ℕ) (t : ℚ) (y : JVal) (pts out : List SolutionPoint),
      integLoop m f tEnd h fwd maxIter t y pts r = .ok out →
      (fwd = true → t ≤ tEnd) → (fwd = false → tEnd ≤ t) →
      (∃ pl, pts.getLast? = some pl ∧ pl.t = t) →
      out.head? = pts.head? ∧
      (∃ q, out.getLast? = some q ∧ q.t = tEnd) ∧
      (∀ p ∈ out, p ∈ pts ∨
        (p.y.isFinite = true ∧ p.y.absGt 10000000000 = false ∧ p.dydt.isFinite = true)) := by
  intro r
  induction r with
  | zero =>
    intro t y pts out hrun _ _ _
    simp [integLoop] at hrun
  | succ r ih =>
    intro t y pts out hrun hfwd hbwd hlast
    rw [integLoop] at hrun
    by_cases hbreak : (fwd = true ∧ t ≥ tEnd) ∨ (fwd = false ∧ t ≤ tEnd)
    · rw [if_pos hbreak] at hrun
      by_cases hr : r = 0
      · rw [if_pos hr] at hrun; exact absurd hrun (by simp)
      · rw [if_neg hr] at hrun
        have hpts : pts = out := by
          injection hrun
        subst hpts
        have ht : t = tEnd := by
          rcases hbreak with ⟨hfw, hge⟩ | ⟨hfw, hle⟩
          · exact le_antisymm (hfwd hfw) hge
          · exact le_antisymm hle (hbwd hfw)
        obtain ⟨pl, hpl, hplt⟩ := hlast
        exact ⟨rfl, ⟨pl, hpl, by rw [hplt, ht]⟩, fun p hp => Or.inl hp⟩
    · rw [if_neg hbreak] at hrun
      cases hstep : m.solve f t y (adjStep tEnd h t fwd) with
      | error e => rw [hstep] at hrun; simp at hrun
      | ok pr =>
        obtain ⟨newT, newY⟩ := pr
        rw [hstep] at hrun
        dsimp only at hrun
        have hnewT : newT = t + adjStep tEnd h t fwd := hfst t y _ _ hstep
        cases hyfin : newY.isFinite with
        | false => rw [hyfin] at hrun; simp at hrun
        | true =>
          rw [hyfin] at hrun
          simp only [Bool.not_true, Bool.false_eq_true, if_false] at hrun
          cases hstab : newY.absGt 10000000000 with
          | true => rw [hstab] at hrun; simp at hrun
          | false =>
            rw [hstab] at hrun
            simp only [Bool.false_eq_true, if_false] at hrun
            cases hder : f newT newY with
            | error e => rw [hder] at hrun; simp at hrun
            | ok dydt =>
              rw [hder] at hrun
              dsimp only at hrun
              cases hdfin : dydt.isFinite with
              | false => rw [hdfin] at hrun; simp at hrun
              | true =>
                rw [hdfin] at hrun
                simp only [Bool.not_true, Bool.false_eq_true, if_false] at hrun
                -- recursive call on the extended trajectory
                have hne : pts ≠ [] := by
                  obtain ⟨pl, hpl, _⟩ := hlast
                  intro hcontra
                  rw [hcontra] at hpl
                  simp at hpl
                have hfwd' : fwd = true → newT ≤ tEnd := by
                  intro hfw
                  rw [hnewT, hfw]
                  exact adjStep_forward_le tEnd h t
                have hbwd' : fwd = false → tEnd ≤ newT := by
                  intro hfw
                  rw [hnewT, hfw]
                  exact adjStep_backward_ge tEnd h t
                have hlast' : ∃ pl,
                    (pts ++ [({ t := newT, y := newY, dydt := dydt } : SolutionPoint)]).getLast? =
                      some pl ∧ pl.t = newT := by
                  refine ⟨{ t := newT, y := newY, dydt := dydt }, ?_, rfl⟩
                  rw [List.getLast?_append]
                  simp
                obtain ⟨hhead, hlastq, hmem⟩ := ih newT newY _ out hrun hfwd' hbwd' hlast'
                refine ⟨?_, hlastq, ?_⟩
                · rw [hhead]
                  cases pts with
                  | nil => exact absurd rfl hne
                  | cons a rest => simp
                · intro p hp
                  rcases hmem p hp with hin | hgood
                  · rcases List.mem_append.mp hin with hin' | hin''
                    · exact Or.inl hin'
                    · right
                      have hpeq : p = ⟨newT, newY, dydt⟩ := by simpa using hin''
                      rw [hpeq]
                      exact ⟨hyfin, hstab, hdfin⟩
                  · exact Or.inr hgood

end ODESolver

namespace ODESolver

/-- A successful loop run whose entry does not break must have taken a
successful, finite step. -/
theorem integLoop_first_step {m : NumericalMethod} {f : ODEFunction} {tEnd h : ℚ} {fwd : Bool}
    {maxIter : ℕ} {t : ℚ} {y : JVal} {pts out : List SolutionPoint} {r : ℕ}
    (hrun : integLoop m f tEnd h fwd maxIter t y pts (r + 1) = .ok out)
    (hbreak : ¬((fwd = true ∧ t ≥ tEnd) ∨ (fwd = false ∧ t ≤ tEnd))) :
    ∃ p, m.solve f t y (adjStep tEnd h t fwd) = .ok p ∧ p.2.isFinite = true := by
  rw [integLoop, if_neg hbreak] at hrun
  cases hstep : m.solve f t y (adjStep tEnd h t fwd) with
  | error e => rw [hstep] at hrun; simp at hrun
  | ok pr =>
    obtain ⟨newT, newY⟩ := pr
    rw [hstep] at hrun
    dsimp only at hrun
    cases hyfin : newY.isFinite with
    | false => rw [hyfin] at hrun; simp at hrun
    | true => exact ⟨(newT, newY), rfl, hyfin⟩

/-- As soon as a step would produce |y| > 1e10 the loop raises, so the
solve can only fail from that state. -/
theorem integLoop_unstable {m : NumericalMethod} {f : ODEFunction} {tEnd h : ℚ} {fwd : Bool}
    {maxIter : ℕ} {t : ℚ} {y : JVal} {pts : List SolutionPoint} {r : ℕ} {nt : ℚ} {q : ℚ}
    (hbreak : ¬((fwd = true ∧ t ≥ tEnd) ∨ (fwd = false ∧ t ≤ tEnd)))
    (hstep : m.solve f t y (adjStep tEnd h t fwd) = .ok (nt, JVal.fin q))
    (hq : |q| > 10000000000) :
    ∃ e, integLoop m f tEnd h fwd maxIter t y pts (r + 1) = .error e := by
  rw [integLoop, if_neg hbreak, hstep]
  dsimp only
  have habs : (JVal.fin q).absGt 10000000000 = true := by
    simp [JVal.absGt, hq]
  rw [show (JVal.fin q).isFinite = true from rfl]
  simp only [Bool.not_true, Bool.false_eq_true, if_false, habs, if_true]
  exact ⟨_, rfl⟩

/-- A loop entry that arrives at the terminal condition with only one
iteration of budget left still fails with the max-iterations error, even
though the trajectory is complete. -/
theorem integLoop_break_at_cap {m : NumericalMethod} {f : ODEFunction} {tEnd h : ℚ} {fwd : Bool}
    {maxIter : ℕ} {t : ℚ} {y : JVal} {pts : List SolutionPoint}
    (hbreak : (fwd = true ∧ t ≥ tEnd) ∨ (fwd = false ∧ t ≤ tEnd)) :
    integLoop m f tEnd h fwd maxIter t y pts 1 = .error (maxIterMsg maxIter) := by
  rw [show (1 : ℕ) = 0 + 1 from rfl, integLoop, if_pos hbreak]
  simp

end ODESolver

/-! ### String helper lemmas -/

theorem append_ne_empty_left {a : String} (ha : a ≠ "") (b : String) : a ++ b ≠ "" := by
  intro h
  apply ha
  have hd : a.data ++ b.data = [] := congrArg String.data h
  exact String.ext (List.append_eq_nil.mp hd).1

theorem mem_dropWhile_of_not {α : Type} (p : α → Bool) (c : α) (hc : p c = false) :
    ∀ l : List α, c ∈ l → c ∈ l.dropWhile p := by
  intro l
  induction l with
  | nil => simp
  | cons a rest ih =>
    intro hm
    rw [List.dropWhile_cons]
    by_cases hpa : p a = true
    · rw [if_pos hpa]
      rcases List.mem_cons.mp hm with rfl | hm'
      · rw [hc] at hpa; cases hpa
      · exact ih hm'
    · rw [if_neg hpa]
      exact hm

/-- A string containing any non-whitespace character does not trim to
the empty string. -/
theorem strTrim_ne_of_mem {s : String} {c : Char}
    (hc : EquationParser.isSpaceChar c = false) (hm : c ∈ s.toList) : strTrim s ≠ "" := by
  intro h
  have hl : ((s.toList.dropWhile EquationParser.isSpaceChar).reverse.dropWhile
      EquationParser.isSpaceChar).reverse = [] := congrArg String.data h
  have h1 : c ∈ s.toList.dropWhile EquationParser.isSpaceChar :=
    mem_dropWhile_of_not _ c hc _ hm
  have h2 : c ∈ (s.toList.dropWhile EquationParser.isSpaceChar).reverse :=
    List.mem_reverse.mpr h1
  have h3 : c ∈ ((s.toList.dropWhile EquationParser.isSpaceChar).reverse.dropWhile
      EquationParser.isSpaceChar) := mem_dropWhile_of_not _ c hc _ h2
  have h4 := List.mem_reverse.mpr h3
  rw [hl] at h4
  simp at h4

/-- Both invalid-branch warnings of validateStepSize trim non-empty
(they start with a capital S). -/
theorem stepWarning_trim_ne (x : String) (tail : String) :
    strTrim ("Step size too" ++ x ++ tail) ≠ "" := by
  apply strTrim_ne_of_mem (c := 'S') (by decide)
  show 'S' ∈ ("Step size too" ++ x ++ tail).data
  have : 'S' ∈ ("Step size too").data := by decide
  simp only [show ("Step size too" ++ x ++ tail).data =
    ("Step size too").data ++ (x.data ++ tail.data) from by simp]
  exact List.mem_append.mpr (Or.inl this)

theorem strTrim_append3_ne (a b c : String) (ch : Char)
    (hch : EquationParser.isSpaceChar ch = false) (hm : ch ∈ a.data) :
    strTrim (a ++ b ++ c) ≠ "" := by
  rw [String.append_assoc]
  apply strTrim_ne_of_mem hch
  show ch ∈ a.data ++ (b ++ c).data
  exact List.mem_append.mpr (Or.inl hm)

namespace NumericalMethods

theorem vss_lt10 {st : ℚ} {d : ℚ × ℚ} (hst : ¬st = 0) (h : |d.2 - d.1| / st < 10) :
    validateStepSize st d =
      { valid := false, suggested := some (|d.2 - d.1| / 20),
        warning := some ("Step size too large. Consider using h ≤ " ++
          toString (|d.2 - d.1| / 20) ++ " for better accuracy.") } := by
  unfold validateStepSize
  rw [if_neg hst]
  dsimp only
  rw [if_pos h]

theorem vss_gt100000 {st : ℚ} {d : ℚ × ℚ} (hst : ¬st = 0)
    (h10 : ¬(|d.2 - d.1| / st < 10)) (hbig : |d.2 - d.1| / st > 100000) :
    validateStepSize st d =
      { valid := false, suggested := some (|d.2 - d.1| / 10000),
        warning := some ("Step size too small. Consider using h ≥ " ++
          toString (|d.2 - d.1| / 10000) ++ " for faster computation.") } := by
  unfold validateStepSize
  rw [if_neg hst]
  dsimp only
  rw [if_neg h10, if_pos hbig]

theorem vss_warn50000 {st : ℚ} {d : ℚ × ℚ} (hst : ¬st = 0)
    (h10 : ¬(|d.2 - d.1| / st < 10)) (hbig : ¬(|d.2 - d.1| / st > 100000))
    (hmid : |d.2 - d.1| / st > 50000) :
    validateStepSize st d =
      { valid := true, suggested := none,
        warning := some ("Large number of steps (" ++ toString (|d.2 - d.1| / st) ++
          "). Computation may take some time.") } := by
  unfold validateStepSize
  rw [if_neg hst]
  dsimp only
  rw [if_neg h10, if_neg hbig, if_pos hmid]

theorem vss_ok {st : ℚ} {d : ℚ × ℚ} (hst : ¬st = 0)
    (h10 : ¬(|d.2 - d.1| / st < 10)) (hbig : ¬(|d.2 - d.1| / st > 100000))
    (hmid : ¬(|d.2 - d.1| / st > 50000)) :
    validateStepSize st d = { valid := true, suggested := none, warning := none } := by
  unfold validateStepSize
  rw [if_neg hst]
  dsimp only
  rw [if_neg h10, if_neg hbig, if_neg hmid]

end NumericalMethods

namespace ODESolver

/-- Characterization of the scalar option validation: the explicit
bounds checks together with the hard step-size advisory (at least 10 and
at most 100000 steps across the domain). -/
theorem validateOptions_valid_iff (o : ODEOptions) :
    (validateOptions o).valid = true ↔
      (0 < o.stepSize ∧ o.stepSize ≤ |o.tEnd - o.t0| ∧ o.t0 ≠ o.tEnd ∧
       |o.tEnd - o.t0| ≤ 1000 ∧ |o.y0| ≤ 1000000 ∧
       10 ≤ |o.tEnd - o.t0| / o.stepSize ∧ |o.tEnd - o.t0| / o.stepSize ≤ 100000) := by
  unfold validateOptions
  split_ifs with h1 h2 h3 h4 h5
  · simp only [Bool.false_eq_true, false_iff]
    rintro ⟨hpos, -⟩
    exact absurd h1 (not_le.mpr hpos)
  · simp only [Bool.false_eq_true, false_iff]
    rintro ⟨-, hle, -⟩
    exact absurd h2 (not_lt.mpr hle)
  · simp only [Bool.false_eq_true, false_iff]
    rintro ⟨-, -, hne, -⟩
    exact hne h3
  · simp only [Bool.false_eq_true, false_iff]
    rintro ⟨-, -, -, hdom, -⟩
    exact absurd h4 (not_lt.mpr hdom)
  · simp only [Bool.false_eq_true, false_iff]
    rintro ⟨-, -, -, -, hy, -⟩
    exact absurd h5 (not_lt.mpr hy)
  · have hpos : 0 < o.stepSize := lt_of_not_le h1
    have hst0 : ¬o.stepSize = 0 := ne_of_gt hpos
    have hle : o.stepSize ≤ |o.tEnd - o.t0| := le_of_not_lt h2
    have hne : o.t0 ≠ o.tEnd := h3
    have hdom : |o.tEnd - o.t0| ≤ 1000 := le_of_not_lt h4
    have hy : |o.y0| ≤ 1000000 := le_of_not_lt h5
    by_cases hA : |(o.t0, o.tEnd).2 - (o.t0, o.tEnd).1| / o.stepSize < 10
    · rw [NumericalMethods.vss_lt10 hst0 hA]
      dsimp only
      have hw : (strTrim ("Step size too large. Consider using h ≤ " ++
          toString (|(o.t0, o.tEnd).2 - (o.t0, o.tEnd).1| / 20) ++
          " for better accuracy.") == "") = false :=
        beq_false_of_ne (strTrim_append3_ne _ _ _ 'S' (by decide) (by decide))
      rw [if_pos (by rw [hw]; rfl)]
      dsimp only
      simp only [Bool.false_eq_true, false_iff]
      rintro ⟨-, -, -, -, -, hge, -⟩
      simp only at hA
      exact absurd hA (not_lt.mpr hge)
    · by_cases hB : |(o.t0, o.tEnd).2 - (o.t0, o.tEnd).1| / o.stepSize > 100000
      · rw [NumericalMethods.vss_gt100000 hst0 hA hB]
        dsimp only
        have hw : (strTrim ("Step size too small. Consider using h ≥ " ++
            toString (|(o.t0, o.tEnd).2 - (o.t0, o.tEnd).1| / 10000) ++
            " for faster computation.") == "") = false :=
          beq_false_of_ne (strTrim_append3_ne _ _ _ 'S' (by decide) (by decide))
        rw [if_pos (by rw [hw]; rfl)]
        dsimp only
        simp only [Bool.false_eq_true, false_iff]
        rintro ⟨-, -, -, -, -, -, hle2⟩
        simp only at hB
        exact absurd hB (not_lt.mpr hle2)
      · have hRge : 10 ≤ |o.tEnd - o.t0| / o.stepSize := by
          have := not_lt.mp hA
          simpa using this
        have hRle : |o.tEnd - o.t0| / o.stepSize ≤ 100000 := by
          have := not_lt.mp hB
          simpa using this
        by_cases hC : |(o.t0, o.tEnd).2 - (o.t0, o.tEnd).1| / o.stepSize > 50000
        · rw [NumericalMethods.vss_warn50000 hst0 hA hB hC]
          dsimp only
          rw [if_neg (by simp)]
          dsimp only
          simp only [true_iff]
          exact ⟨hpos, hle, hne, hdom, hy, hRge, hRle⟩
        · rw [NumericalMethods.vss_ok hst0 hA hB hC]
          dsimp only
          simp only [true_iff]
          exact ⟨hpos, hle, hne, hdom, hy, hRge, hRle⟩

end ODESolver

namespace CoupledODESolver

/-- Characterization of the coupled option validation: the generalized
bounds checks only - no step-size advisory is consulted (unlike the
scalar solver). -/
theorem coupled_validateOptions_valid_iff (o : CoupledODEOptions) :
    (validateOptions o).valid = true ↔
      (o.y0 ≠ [] ∧ 0 < o.stepSize ∧ o.stepSize ≤ |o.tEnd - o.t0| ∧ o.t0 ≠ o.tEnd ∧
       |o.tEnd - o.t0| ≤ 1000 ∧ ∀ yi ∈ o.y0, |yi| ≤ 1000000) := by
  unfold validateOptions
  split_ifs with h1 h2 h3 h4 h5 h6
  · simp only [Bool.false_eq_true, false_iff]
    rintro ⟨hne, -⟩
    exact hne (List.isEmpty_iff.mp h1)
  · simp only [Bool.false_eq_true, false_iff]
    rintro ⟨-, hpos, -⟩
    exact absurd h2 (not_le.mpr hpos)
  · simp only [Bool.false_eq_true, false_iff]
    rintro ⟨-, -, hle, -⟩
    exact absurd h3 (not_lt.mpr hle)
  · simp only [Bool.false_eq_true, false_iff]
    rintro ⟨-, -, -, hne, -⟩
    exact hne h4
  · simp only [Bool.false_eq_true, false_iff]
    rintro ⟨-, -, -, -, hdom, -⟩
    exact absurd h5 (not_lt.mpr hdom)
  · simp only [Bool.false_eq_true, false_iff]
    rintro ⟨-, -, -, -, -, hall⟩
    rw [List.any_eq_true] at h6
    obtain ⟨yi, hmem, hbig⟩ := h6
    rw [decide_eq_true_eq] at hbig
    exact absurd hbig (not_lt.mpr (hall yi hmem))
  · simp only [true_iff]
    refine ⟨fun hc => ?_, lt_of_not_le h2, le_of_not_lt h3, h4, le_of_not_lt h5, ?_⟩
    · rw [hc] at h1
      simp at h1
    · intro yi hmem
      by_contra hbig
      exact h6 (List.any_eq_true.mpr ⟨yi, hmem, decide_eq_true (lt_of_not_le hbig)⟩)

end CoupledODESolver

namespace EquationParser

/-- Every error message parse can produce is non-empty. -/
theorem parse_error_ne (e : String) {msg : String}
    (h : (parse e).error = some msg) : msg ≠ "" := by
  unfold parse at h
  dsimp only at h
  split at h
  · split at h
    · dsimp only at h
      injection h with h'
      subst h'
      exact append_ne_empty_left (by decide) _
    · split at h
      · split at h
        · dsimp only at h
          simp at h
        · dsimp only at h
          injection h with h'
          subst h'
          decide
      · dsimp only at h
        injection h with h'
        subst h'
        exact append_ne_empty_left (by decide) _
  · dsimp only at h
    injection h with h'
    subst h'
    exact append_ne_empty_left (append_ne_empty_left (by decide) _) _

/-- Every error message parseCoupled can produce is non-empty. -/
theorem parseCoupled_error_ne (es : List String) {msg : String}
    (h : (parseCoupled es).error = some msg) : msg ≠ "" := by
  unfold parseCoupled at h
  split at h
  · dsimp only at h
    injection h with h'
    subst h'
    decide
  · dsimp only at h
    split at h
    · dsimp only at h
      injection h with h'
      subst h'
      exact append_ne_empty_left (by decide) _
    · split at h
      · dsimp only at h
        injection h with h'
        subst h'
        exact append_ne_empty_left (append_ne_empty_left (by decide) _) _
      · dsimp only at h
        simp at h

end EquationParser

namespace ODESolver

/-- An invalid scalar option record always carries a non-empty error. -/
theorem validateOptions_invalid_error {o : ODEOptions}
    (h : (validateOptions o).valid = false) :
    ∃ w, (validateOptions o).error = some w ∧ w ≠ "" := by
  unfold validateOptions at h ⊢
  split_ifs at h ⊢
  · exact ⟨_, rfl, by decide⟩
  · exact ⟨_, rfl, by decide⟩
  · exact ⟨_, rfl, by decide⟩
  · exact ⟨_, rfl, by decide⟩
  · exact ⟨_, rfl, by decide⟩
  · set sv := NumericalMethods.validateStepSize o.stepSize (o.t0, o.tEnd) with hsv
    dsimp only at h ⊢
    cases hw : sv.warning with
    | none =>
      rw [hw] at h
      dsimp only at h
      exact absurd h (by simp)
    | some w =>
      rw [hw] at h
      dsimp only at h ⊢
      cases hc : (!sv.valid && !(strTrim w == "")) with
      | true =>
        simp only [hc, eq_self_iff_true, if_true] at h ⊢
        refine ⟨w, rfl, ?_⟩
        rintro rfl
        rw [show (strTrim "" == "") = true from by decide] at hc
        simp at hc
      | false =>
        simp only [hc, Bool.false_eq_true, if_false] at h
        simp at h

/-- Inverting a successful scalar numericalSolve: the shape facts of the
returned record. -/
theorem numericalSolve_ok {s : String} {m : NumericalMethod} {f : ODEFunction}
    {o : ODEOptions} {sol : ODESolution}
    (hm : NumericalMethods.getMethod s = some m)
    (h : numericalSolve f o m = .ok sol) (ht : o.t0 ≠ o.tEnd) :
    sol.success = true ∧ sol.error = none ∧
    ∃ d rest, sol.points = ⟨o.t0, JVal.fin o.y0, d⟩ :: rest ∧
      f o.t0 (JVal.fin o.y0) = .ok d ∧ d.isFinite = true ∧
      (∃ q, sol.points.getLast? = some q ∧ q.t = o.tEnd) ∧
      (∀ p ∈ sol.points, p = ⟨o.t0, JVal.fin o.y0, d⟩ ∨
        (p.y.isFinite = true ∧ p.y.absGt 10000000000 = false ∧ p.dydt.isFinite = true)) := by
  unfold numericalSolve at h
  dsimp only at h
  cases hf0 : f o.t0 (JVal.fin o.y0) with
  | error e => rw [hf0] at h; simp at h
  | ok dydt0 =>
    rw [hf0] at h
    dsimp only at h
    cases hloop : integLoop m f o.tEnd
        (if o.tEnd > o.t0 then |o.stepSize| else -|o.stepSize|)
        (decide (o.tEnd > o.t0)) (o.maxIterations.getD 1000000) o.t0 (JVal.fin o.y0)
        [⟨o.t0, JVal.fin o.y0, dydt0⟩] (o.maxIterations.getD 1000000) with
    | error e => rw [hloop] at h; simp at h
    | ok pts =>
      rw [hloop] at h
      dsimp only at h
      injection h with h'
      subst h'
      -- loop entry conditions
      have hfwd : decide (o.tEnd > o.t0) = true → o.t0 ≤ o.tEnd := fun hd =>
        le_of_lt (of_decide_eq_true hd)
      have hbwd : decide (o.tEnd > o.t0) = false → o.tEnd ≤ o.t0 := fun hd =>
        le_of_not_lt (of_decide_eq_false hd)
      have hshape := integLoop_shape m f o.tEnd
        (if o.tEnd > o.t0 then |o.stepSize| else -|o.stepSize|)
        (decide (o.tEnd > o.t0)) (o.maxIterations.getD 1000000)
        (fun t y hh p hp => NumericalMethods.getMethod_solve_fst hm hp)
        (o.maxIterations.getD 1000000) o.t0 (JVal.fin o.y0)
        [⟨o.t0, JVal.fin o.y0, dydt0⟩] pts hloop hfwd hbwd
        ⟨⟨o.t0, JVal.fin o.y0, dydt0⟩, rfl, rfl⟩
      obtain ⟨hhead, hlastq, hmem⟩ := hshape
      -- the loop cannot break on its first entry
      have hbreak : ¬((decide (o.tEnd > o.t0) = true ∧ o.t0 ≥ o.tEnd) ∨
          (decide (o.tEnd > o.t0) = false ∧ o.t0 ≤ o.tEnd)) := by
        rintro (⟨hd, hge⟩ | ⟨hd, hle⟩)
        · exact absurd (of_decide_eq_true hd) (not_lt.mpr hge)
        · exact ht (le_antisymm hle (le_of_not_lt (of_decide_eq_false hd)))
      -- the derivative recorded in the initial point is finite
      have hdfin : dydt0.isFinite = true := by
        cases hmx : o.maxIterations.getD 1000000 with
        | zero => rw [hmx] at hloop; simp [integLoop] at hloop
        | succ r =>
          rw [hmx] at hloop
          obtain ⟨p, hstep, hpfin⟩ := integLoop_first_step hloop hbreak
          obtain ⟨k1, hk1, hk1fin⟩ := NumericalMethods.getMethod_solve_k1_finite hm hstep hpfin
          rw [hf0] at hk1
          injection hk1 with hk
          rw [hk]
          exact hk1fin
      -- head of the output
      cases pts with
      | nil => simp at hhead
      | cons p0 rest =>
        have hp0 : p0 = ⟨o.t0, JVal.fin o.y0, dydt0⟩ := by
          simpa using hhead
        subst hp0
        refine ⟨rfl, rfl, dydt0, rest, rfl, rfl, hdfin, ?_, ?_⟩
        · simpa using hlastq
        · intro p hp
          rcases hmem p hp with hin | hgood
          · left
            simpa using hin
          · exact Or.inr hgood

end ODESolver

namespace ODESolver

/-- Full inversion of the scalar solveWithFunction: a successful call
returns the initial point followed by checked points and lands exactly
on tEnd; a failed call returns no points and a non-empty error. -/
theorem solveWithFunction_inv (f : ODEFunction) (o : ODEOptions) :
    ((solveWithFunction f o).success = true →
      ∃ d rest, (solveWithFunction f o).points = ⟨o.t0, JVal.fin o.y0, d⟩ :: rest ∧
        d.isFinite = true ∧ |o.y0| ≤ 1000000 ∧
        (∃ q, (solveWithFunction f o).points.getLast? = some q ∧ q.t = o.tEnd) ∧
        (∀ p ∈ (solveWithFunction f o).points, p = ⟨o.t0, JVal.fin o.y0, d⟩ ∨
          (p.y.isFinite = true ∧ p.y.absGt 10000000000 = false ∧ p.dydt.isFinite = true))) ∧
    ((solveWithFunction f o).success = false →
      (solveWithFunction f o).points = [] ∧
      ∃ msg, (solveWithFunction f o).error = some msg ∧ msg ≠ "") := by
  unfold solveWithFunction
  dsimp only
  cases hval : (validateOptions o).valid with
  | false =>
    simp only [Bool.false_eq_true, if_false]
    obtain ⟨w, hw, hne⟩ := validateOptions_invalid_error hval
    constructor
    · intro hs
      exact absurd hs (by simp [failRecord])
    · intro _
      refine ⟨rfl, w, ?_, hne⟩
      simp only [failRecord, hw, Option.getD_some]
  | true =>
    rw [if_pos rfl]
    have hvr := (validateOptions_valid_iff o).mp hval
    have ht : o.t0 ≠ o.tEnd := hvr.2.2.1
    have hy : |o.y0| ≤ 1000000 := hvr.2.2.2.2.1
    cases hm : NumericalMethods.getMethod (o.method.getD "rk4") with
    | none =>
      dsimp only
      constructor
      · intro hs
        exact absurd hs (by simp [failRecord])
      · intro _
        exact ⟨rfl, _, rfl, append_ne_empty_left (by decide) _⟩
    | some m =>
      dsimp only
      cases hsolve : numericalSolve f o m with
      | error e =>
        dsimp only
        constructor
        · intro hs
          exact absurd hs (by simp [failRecord])
        · intro _
          exact ⟨rfl, _, rfl, append_ne_empty_left (by decide) _⟩
      | ok sol =>
        dsimp only
        obtain ⟨hsucc, herr, d, rest, hpts, hf0, hdfin, hlastq, hmem⟩ :=
          numericalSolve_ok hm hsolve ht
        constructor
        · intro _
          exact ⟨d, rest, hpts, hdfin, hy, hlastq, hmem⟩
        · intro hs
          rw [hsucc] at hs
          simp at hs

end ODESolver

theorem mapIdxAux_length (g : ℕ → JVal → JVal) :
    ∀ (i : ℕ) (l : List JVal), (mapIdxAux g i l).length = l.length := by
  intro i l
  induction l generalizing i with
  | nil => rfl
  | cons v rest ih => simp [mapIdxAux, ih]

namespace CoupledNumericalMethods

theorem coupled_getMethod_eq {s : String} {m : CoupledNumericalMethod} (h : getMethod s = some m) :
    m = euler ∨ m = heun ∨ m = rk4 := by
  unfold getMethod at h
  simp only at h
  split_ifs at h <;> simp_all

/-- Every coupled registry method reports the new t as t + h and keeps
the state length. -/
theorem coupled_getMethod_solve_inv {s : String} {m : CoupledNumericalMethod}
    (hm : getMethod s = some m) {f : CoupledODEFunction} {x : ℚ} {y : List JVal} {h : ℚ}
    {p : ℚ × List JVal} (hp : m.solve f x y h = .ok p) :
    p.1 = x + h ∧ p.2.length = y.length := by
  rcases coupled_getMethod_eq hm with rfl | rfl | rfl
  · cases hf : f x y with
    | error e => simp [euler, hf] at hp
    | ok k1 =>
      simp only [euler, hf, Except.ok.injEq] at hp
      rw [← hp]
      exact ⟨rfl, mapIdxAux_length _ _ _⟩
  · cases hf : f x y with
    | error e => simp [heun, hf] at hp
    | ok k1 =>
      cases hf2 : f (x + h)
          (mapIdxAux (fun i yi => JVal.add yi (JVal.mul (JVal.fin h) (getPad k1 i))) 0 y) with
      | error e => simp [heun, hf, hf2] at hp
      | ok k2 =>
        simp only [heun, hf, hf2, Except.ok.injEq] at hp
        rw [← hp]
        exact ⟨rfl, mapIdxAux_length _ _ _⟩
  · cases hf : f x y with
    | error e => simp [rk4, hf] at hp
    | ok k1 =>
      cases hf2 : f (x + h / 2) (mapIdxAux (fun i yi =>
          JVal.add yi (JVal.div (JVal.mul (JVal.fin h) (getPad k1 i)) (JVal.fin 2))) 0 y) with
      | error e => simp [rk4, hf, hf2] at hp
      | ok k2 =>
        cases hf3 : f (x + h / 2) (mapIdxAux (fun i yi =>
            JVal.add yi (JVal.div (JVal.mul (JVal.fin h) (getPad k2 i)) (JVal.fin 2))) 0 y) with
        | error e => simp [rk4, hf, hf2, hf3] at hp
        | ok k3 =>
          cases hf4 : f (x + h) (mapIdxAux (fun i yi =>
              JVal.add yi (JVal.mul (JVal.fin h) (getPad k3 i))) 0 y) with
          | error e => simp [rk4, hf, hf2, hf3, hf4] at hp
          | ok k4 =>
            simp only [rk4, hf, hf2, hf3, hf4, Except.ok.injEq] at hp
            rw [← hp]
            exact ⟨rfl, mapIdxAux_length _ _ _⟩

end CoupledNumericalMethods

namespace CoupledODESolver

/-- Shape invariant of a successful coupled integration loop run: head
preserved, all appended points length-N with checked components, final t
exactly tEnd. -/
theorem coupled_integLoop_shape (m : CoupledNumericalMethod) (f : CoupledODEFunction) (tEnd h : ℚ)
    (fwd : Bool) (maxIter : ℕ) (N : ℕ)
    (hstep : ∀ (t : ℚ) (y : List JVal) (hh : ℚ) (p : ℚ × List JVal),
      m.solve f t y hh = .ok p → p.1 = t + hh ∧ p.2.length = y.length) :
    ∀ (r : ℕ) (t : ℚ) (y : List JVal) (pts out : List CoupledSolutionPoint),
      integLoop m f tEnd h fwd maxIter t y pts r = .ok out →
      (fwd = true → t ≤ tEnd) → (fwd = false → tEnd ≤ t) →
      y.length = N →
      (∃ pl, pts.getLast? = some pl ∧ pl.t = t) →
      out.head? = pts.head? ∧
      (∃ q, out.getLast? = some q ∧ q.t = tEnd) ∧
      (∀ p ∈ out, p ∈ pts ∨
        (p.y.length = N ∧ (∀ v ∈ p.y, v.isFinite = true ∧ v.absGt 10000000000 = false) ∧
          ∀ d ∈ p.dydt, d.isFinite = true)) := by
  intro r
  induction r with
  | zero =>
    intro t y pts out hrun _ _ _ _
    simp [integLoop] at hrun
  | succ r ih =>
    intro t y pts out hrun hfwd hbwd hN hlast
    rw [integLoop] at hrun
    by_cases hbreak : (fwd = true ∧ t ≥ tEnd) ∨ (fwd = false ∧ t ≤ tEnd)
    · rw [if_pos hbreak] at hrun
      by_cases hr : r = 0
      · rw [if_pos hr] at hrun; exact absurd hrun (by simp)
      · rw [if_neg hr] at hrun
        have hpts : pts = out := by injection hrun
        subst hpts
        have ht : t = tEnd := by
          rcases hbreak with ⟨hfw, hge⟩ | ⟨hfw, hle⟩
          · exact le_antisymm (hfwd hfw) hge
          · exact le_antisymm hle (hbwd hfw)
        obtain ⟨pl, hpl, hplt⟩ := hlast
        exact ⟨rfl, ⟨pl, hpl, by rw [hplt, ht]⟩, fun p hp => Or.inl hp⟩
    · rw [if_neg hbreak] at hrun
      cases hsol : m.solve f t y (adjStep tEnd h t fwd) with
      | error e => rw [hsol] at hrun; simp at hrun
      | ok pr =>
        obtain ⟨newT, newY⟩ := pr
        rw [hsol] at hrun
        dsimp only at hrun
        obtain ⟨hnewT, hnewLen⟩ := hstep t y _ _ hsol
        simp only at hnewT hnewLen
        cases hyfin : newY.any (fun yi => !yi.isFinite) with
        | true => rw [hyfin] at hrun; simp at hrun
        | false =>
          rw [hyfin] at hrun
          simp only [Bool.false_eq_true, if_false] at hrun
          cases hstab : newY.any (fun yi => yi.absGt 10000000000) with
          | true => rw [hstab] at hrun; simp at hrun
          | false =>
            rw [hstab] at hrun
            simp only [Bool.false_eq_true, if_false] at hrun
            cases hder : f newT newY with
            | error e => rw [hder] at hrun; simp at hrun
            | ok dydt =>
              rw [hder] at hrun
              dsimp only at hrun
              cases hdfin : dydt.any (fun d => !d.isFinite) with
              | true => rw [hdfin] at hrun; simp at hrun
              | false =>
                rw [hdfin] at hrun
                simp only [Bool.false_eq_true, if_false] at hrun
                have hne : pts ≠ [] := by
                  obtain ⟨pl, hpl, _⟩ := hlast
                  intro hcontra
                  rw [hcontra] at hpl
                  simp at hpl
                have hfwd' : fwd = true → newT ≤ tEnd := by
                  intro hfw
                  rw [hnewT, hfw]
                  exact adjStep_forward_le tEnd h t
                have hbwd' : fwd = false → tEnd ≤ newT := by
                  intro hfw
                  rw [hnewT, hfw]
                  exact adjStep_backward_ge tEnd h t
                have hN' : newY.length = N := by rw [hnewLen, hN]
                have hlast' : ∃ pl,
                    (pts ++ [({ t := newT, y := newY, dydt := dydt } :
                      CoupledSolutionPoint)]).getLast? = some pl ∧ pl.t = newT := by
                  refine ⟨{ t := newT, y := newY, dydt := dydt }, ?_, rfl⟩
                  rw [List.getLast?_append]
                  simp
                obtain ⟨hhead, hlastq, hmem⟩ := ih newT newY _ out hrun hfwd' hbwd' hN' hlast'
                refine ⟨?_, hlastq, ?_⟩
                · rw [hhead]
                  cases pts with
                  | nil => exact absurd rfl hne
                  | cons a rest => simp
                · intro p hp
                  rcases hmem p hp with hin | hgood
                  · rcases List.mem_append.mp hin with hin' | hin''
                    · exact Or.inl hin'
                    · right
                      have hpeq : p = ⟨newT, newY, dydt⟩ := by simpa using hin''
                      rw [hpeq]
                      refine ⟨hN', ?_, ?_⟩
                      · intro v hv
                        constructor
                        · by_contra hvf
                          have : newY.any (fun yi => !yi.isFinite) = true :=
                            List.any_eq_true.mpr ⟨v, hv, by
                              simp only [Bool.not_eq_true'] at hvf ⊢
                              simp [hvf]⟩
                          rw [hyfin] at this
                          cases this
                        · by_contra hvs
                          have : newY.any (fun yi => yi.absGt 10000000000) = true :=
                            List.any_eq_true.mpr ⟨v, hv, by
                              cases hval : v.absGt 10000000000
                              · exact absurd hval hvs
                              · rfl⟩
                          rw [hstab] at this
                          cases this
                      · intro d hd
                        by_contra hdf
                        have : dydt.any (fun x => !x.isFinite) = true :=
                          List.any_eq_true.mpr ⟨d, hd, by
                            simp only [Bool.not_eq_true'] at hdf ⊢
                            simp [hdf]⟩
                        rw [hdfin] at this
                        cases this
                  · exact Or.inr hgood

end CoupledODESolver

namespace CoupledODESolver

/-- An invalid coupled option record always carries a non-empty error. -/
theorem coupled_validateOptions_invalid_error {o : CoupledODEOptions}
    (h : (validateOptions o).valid = false) :
    ∃ w, (validateOptions o).error = some w ∧ w ≠ "" := by
  unfold validateOptions at h ⊢
  split_ifs at h ⊢
  · exact ⟨_, rfl, by decide⟩
  · exact ⟨_, rfl, by decide⟩
  · exact ⟨_, rfl, by decide⟩
  · exact ⟨_, rfl, by decide⟩
  · exact ⟨_, rfl, by decide⟩
  · exact ⟨_, rfl, by decide⟩

/-- Inverting a successful coupled numericalSolve. -/
theorem coupled_numericalSolve_ok {s : String} {m : CoupledNumericalMethod} {f : CoupledODEFunction}
    {o : CoupledODEOptions} {sol : CoupledODESolution}
    (hm : CoupledNumericalMethods.getMethod s = some m)
    (h : numericalSolve f o m = .ok sol) :
    sol.success = true ∧ sol.error = none ∧
    ∃ d rest, sol.points = ⟨o.t0, o.y0.map JVal.fin, d⟩ :: rest ∧
      f o.t0 (o.y0.map JVal.fin) = .ok d ∧
      (∃ q, sol.points.getLast? = some q ∧ q.t = o.tEnd) ∧
      (∀ p ∈ sol.points, p.y.length = o.y0.length) := by
  unfold numericalSolve at h
  dsimp only at h
  cases hf0 : f o.t0 (o.y0.map JVal.fin) with
  | error e => rw [hf0] at h; simp at h
  | ok dydt0 =>
    rw [hf0] at h
    dsimp only at h
    cases hloop : integLoop m f o.tEnd
        (if o.tEnd > o.t0 then |o.stepSize| else -|o.stepSize|)
        (decide (o.tEnd > o.t0)) (o.maxIterations.getD 1000000) o.t0 (o.y0.map JVal.fin)
        [⟨o.t0, o.y0.map JVal.fin, dydt0⟩] (o.maxIterations.getD 1000000) with
    | error e => rw [hloop] at h; simp at h
    | ok pts =>
      rw [hloop] at h
      dsimp only at h
      injection h with h'
      subst h'
      have hfwd : decide (o.tEnd > o.t0) = true → o.t0 ≤ o.tEnd := fun hd =>
        le_of_lt (of_decide_eq_true hd)
      have hbwd : decide (o.tEnd > o.t0) = false → o.tEnd ≤ o.t0 := fun hd =>
        le_of_not_lt (of_decide_eq_false hd)
      have hshape := coupled_integLoop_shape m f o.tEnd
        (if o.tEnd > o.t0 then |o.stepSize| else -|o.stepSize|)
        (decide (o.tEnd > o.t0)) (o.maxIterations.getD 1000000) (o.y0.map JVal.fin).length
        (fun t y hh p hp => CoupledNumericalMethods.coupled_getMethod_solve_inv hm hp)
        (o.maxIterations.getD 1000000) o.t0 (o.y0.map JVal.fin)
        [⟨o.t0, o.y0.map JVal.fin, dydt0⟩] pts hloop hfwd hbwd rfl
        ⟨⟨o.t0, o.y0.map JVal.fin, dydt0⟩, rfl, rfl⟩
      obtain ⟨hhead, hlastq, hmem⟩ := hshape
      cases pts with
      | nil => simp at hhead
      | cons p0 rest =>
        have hp0 : p0 = ⟨o.t0, o.y0.map JVal.fin, dydt0⟩ := by simpa using hhead
        subst hp0
        refine ⟨rfl, rfl, dydt0, rest, rfl, rfl, by simpa using hlastq, ?_⟩
        intro p hp
        rcases hmem p hp with hin | hgood
        · have hpeq : p = ⟨o.t0, o.y0.map JVal.fin, dydt0⟩ := by simpa using hin
          rw [hpeq]
          simp
        · rw [hgood.1]
          simp

/-- Full inversion of the coupled solveWithFunction. -/
theorem coupled_solveWithFunction_inv (f : CoupledODEFunction) (o : CoupledODEOptions) :
    ((solveWithFunction f o).success = true →
      ∃ d rest, (solveWithFunction f o).points = ⟨o.t0, o.y0.map JVal.fin, d⟩ :: rest ∧
        (∃ q, (solveWithFunction f o).points.getLast? = some q ∧ q.t = o.tEnd) ∧
        (∀ p ∈ (solveWithFunction f o).points, p.y.length = o.y0.length)) ∧
    ((solveWithFunction f o).success = false →
      (solveWithFunction f o).points = [] ∧
      ∃ msg, (solveWithFunction f o).error = some msg ∧ msg ≠ "") := by
  unfold solveWithFunction
  dsimp only
  cases hval : (validateOptions o).valid with
  | false =>
    simp only [Bool.false_eq_true, if_false]
    obtain ⟨w, hw, hne⟩ := coupled_validateOptions_invalid_error hval
    constructor
    · intro hs
      exact absurd hs (by simp [failRecord])
    · intro _
      refine ⟨rfl, w, ?_, hne⟩
      simp only [failRecord, hw, Option.getD_some]
  | true =>
    rw [if_pos rfl]
    cases hm : CoupledNumericalMethods.getMethod (o.method.getD "rk4") with
    | none =>
      dsimp only
      constructor
      · intro hs
        exact absurd hs (by simp [failRecord])
      · intro _
        exact ⟨rfl, _, rfl, append_ne_empty_left (by decide) _⟩
    | some m =>
      dsimp only
      cases hsolve : numericalSolve f o m with
      | error e =>
        dsimp only
        constructor
        · intro hs
          exact absurd hs (by simp [failRecord])
        · intro _
          exact ⟨rfl, _, rfl, append_ne_empty_left (by decide) _⟩
      | ok sol =>
        dsimp only
        obtain ⟨hsucc, herr, d, rest, hpts, hf0, hlastq, hlen⟩ := coupled_numericalSolve_ok hm hsolve
        constructor
        · intro _
          exact ⟨d, rest, hpts, hlastq, hlen⟩
        · intro hs
          rw [hsucc] at hs
          simp at hs

end CoupledODESolver


namespace ODESolver

/-- Shape inversion for the string-based scalar solve. -/
theorem solve_inv (e : String) (o : ODEOptions) :
    ((solve e o).success = true →
      ∃ d rest, (solve e o).points = ⟨o.t0, JVal.fin o.y0, d⟩ :: rest ∧
        ∃ q, (solve e o).points.getLast? = some q ∧ q.t = o.tEnd) ∧
    ((solve e o).success = false →
      (solve e o).points = [] ∧ ∃ msg, (solve e o).error = some msg ∧ msg ≠ "") := by
  unfold solve
  dsimp only
  cases hpv : (EquationParser.parse e).valid with
  | true =>
    rw [if_pos rfl]
    have h := solveWithFunction_inv (EquationParser.parse e).evaluate o
    exact ⟨fun hs => by
      obtain ⟨d, rest, hpts, _, _, hlast, _⟩ := h.1 hs
      exact ⟨d, rest, hpts, hlast⟩, h.2⟩
  | false =>
    simp only [Bool.false_eq_true, if_false]
    constructor
    · intro hs
      exact absurd hs (by simp [failRecord])
    · intro _
      refine ⟨rfl, _, rfl, ?_⟩
      cases herr : (EquationParser.parse e).error with
      | some msg =>
        simp only [herr, Option.getD_some]
        exact EquationParser.parse_error_ne e herr
      | none =>
        simp only [herr, Option.getD_none]
        decide

end ODESolver

namespace CoupledODESolver

/-- Shape inversion for the string-based coupled solve. -/
theorem coupled_solve_inv (es : List String) (o : CoupledODEOptions) :
    ((solve es o).success = true →
      ∃ d rest, (solve es o).points = ⟨o.t0, o.y0.map JVal.fin, d⟩ :: rest ∧
        ∃ q, (solve es o).points.getLast? = some q ∧ q.t = o.tEnd) ∧
    ((solve es o).success = false →
      (solve es o).points = [] ∧ ∃ msg, (solve es o).error = some msg ∧ msg ≠ "") := by
  unfold solve
  dsimp only
  cases hpv : (EquationParser.parseCoupled es).valid with
  | true =>
    rw [if_pos rfl]
    have h := coupled_solveWithFunction_inv (EquationParser.parseCoupled es).evaluate o
    exact ⟨fun hs => by
      obtain ⟨d, rest, hpts, hlast, _⟩ := h.1 hs
      exact ⟨d, rest, hpts, hlast⟩, h.2⟩
  | false =>
    simp only [Bool.false_eq_true, if_false]
    constructor
    · intro hs
      exact absurd hs (by simp [failRecord])
    · intro _
      refine ⟨rfl, _, rfl, ?_⟩
      cases herr : (EquationParser.parseCoupled es).error with
      | some msg =>
        simp only [herr, Option.getD_some]
        exact EquationParser.parseCoupled_error_ne es herr
      | none =>
        simp only [herr, Option.getD_none]
        decide

end CoupledODESolver

/-! ## Claim theorems -/

/-- Claim C1: every call to solve/solveWithFunction (scalar or coupled)
satisfies the result-shape invariant. On success the point sequence is
non-empty, starts exactly at (t0, y0) and its last point reaches tEnd
(exactly, in the exact-rational model, hence within any floating
tolerance); on failure the point sequence is empty and the error is a
non-empty message. -/
theorem claim_C1 :
    (∀ (f : ODEFunction) (o : ODEOptions),
      ((ODESolver.solveWithFunction f o).success = true →
        ∃ d rest, (ODESolver.solveWithFunction f o).points =
            ⟨o.t0, JVal.fin o.y0, d⟩ :: rest ∧
          ∃ q, (ODESolver.solveWithFunction f o).points.getLast? = some q ∧ q.t = o.tEnd) ∧
      ((ODESolver.solveWithFunction f o).success = false →
        (ODESolver.solveWithFunction f o).points = [] ∧
        ∃ msg, (ODESolver.solveWithFunction f o).error = some msg ∧ msg ≠ "")) ∧
    (∀ (e : String) (o : ODEOptions),
      ((ODESolver.solve e o).success = true →
        ∃ d rest, (ODESolver.solve e o).points = ⟨o.t0, JVal.fin o.y0, d⟩ :: rest ∧
          ∃ q, (ODESolver.solve e o).points.getLast? = some q ∧ q.t = o.tEnd) ∧
      ((ODESolver.solve e o).success = false →
        (ODESolver.solve e o).points = [] ∧
        ∃ msg, (ODESolver.solve e o).error = some msg ∧ msg ≠ "")) ∧
    (∀ (f : CoupledODEFunction) (o : CoupledODEOptions),
      ((CoupledODESolver.solveWithFunction f o).success = true →
        ∃ d rest, (CoupledODESolver.solveWithFunction f o).points =
            ⟨o.t0, o.y0.map JVal.fin, d⟩ :: rest ∧
          ∃ q, (CoupledODESolver.solveWithFunction f o).points.getLast? = some q ∧
            q.t = o.tEnd) ∧
      ((CoupledODESolver.solveWithFunction f o).success = false →
        (CoupledODESolver.solveWithFunction f o).points = [] ∧
        ∃ msg, (CoupledODESolver.solveWithFunction f o).error = some msg ∧ msg ≠ "")) ∧
    (∀ (es : List String) (o : CoupledODEOptions),
      ((CoupledODESolver.solve es o).success = true →
        ∃ d rest, (CoupledODESolver.solve es o).points =
            ⟨o.t0, o.y0.map JVal.fin, d⟩ :: rest ∧
          ∃ q, (CoupledODESolver.solve es o).points.getLast? = some q ∧ q.t = o.tEnd) ∧
      ((CoupledODESolver.solve es o).success = false →
        (CoupledODESolver.solve es o).points = [] ∧
        ∃ msg, (CoupledODESolver.solve es o).error = some msg ∧ msg ≠ "")) := by
  refine ⟨fun f o => ?_, fun e o => ODESolver.solve_inv e o,
    fun f o => ?_, fun es o => CoupledODESolver.coupled_solve_inv es o⟩
  · have h := ODESolver.solveWithFunction_inv f o
    refine ⟨fun hs => ?_, h.2⟩
    obtain ⟨d, rest, hpts, _, _, hlast, _⟩ := h.1 hs
    exact ⟨d, rest, hpts, hlast⟩
  · have h := CoupledODESolver.coupled_solveWithFunction_inv f o
    refine ⟨fun hs => ?_, h.2⟩
    obtain ⟨d, rest, hpts, hlast, _⟩ := h.1 hs
    exact ⟨d, rest, hpts, hlast⟩

attribute [local semireducible] Rat.add Rat.mul Rat.inv Rat.sub in
/-- Claim C1 witness: the invariant instantiated on a concrete
successful solve and a concrete failed solve. -/
theorem claim_C1_witness :
    ((ODESolver.solveWithFunction fLin optsUnit).success = true ∧
      (∃ d rest, (ODESolver.solveWithFunction fLin optsUnit).points =
          ⟨optsUnit.t0, JVal.fin optsUnit.y0, d⟩ :: rest ∧
        ∃ q, (ODESolver.solveWithFunction fLin optsUnit).points.getLast? = some q ∧
          q.t = optsUnit.tEnd)) ∧
    ((ODESolver.solve "t + z" optsUnit).success = false ∧
      ((ODESolver.solve "t + z" optsUnit).points = [] ∧
        ∃ msg, (ODESolver.solve "t + z" optsUnit).error = some msg ∧ msg ≠ "")) :=
  ⟨⟨by decide, (claim_C1.1 fLin optsUnit).1 (by decide)⟩,
   ⟨by decide, (claim_C1.2.1 "t + z" optsUnit).2 (by decide)⟩⟩

attribute [local semireducible] Rat.add Rat.mul Rat.inv Rat.sub in
/-- Claim C2 counterexample: a stepSize exactly equal to the domain
length |tEnd - t0| is NOT accepted - the scalar option validation
treats the failed step-size advisory (1 step < 10 steps) as a hard
failure, so the claim as stated is false at t0=0, tEnd=1, stepSize=1. -/
theorem claim_C2_counterexample :
    (ODESolver.validateOptions optsDomainStep).valid = false ∧
    (ODESolver.solveWithFunction fZero optsDomainStep).success = false := by
  constructor <;> decide

/-- Claim C2 (amended): scalar option validation accepts exactly when
stepSize is positive and at most the domain length, t0 differs from
tEnd, the domain is at most 1000, |y0| is at most 1e6, AND the step-size
advisory holds (between 10 and 100000 steps across the domain); in
particular stepSize greater than the domain is rejected and t0 = tEnd
is always rejected, but stepSize equal to the domain length is also
rejected (by the advisory), contrary to the original claim. -/
theorem claim_C2 :
    (∀ o : ODEOptions, (ODESolver.validateOptions o).valid = true ↔
      (0 < o.stepSize ∧ o.stepSize ≤ |o.tEnd - o.t0| ∧ o.t0 ≠ o.tEnd ∧
       |o.tEnd - o.t0| ≤ 1000 ∧ |o.y0| ≤ 1000000 ∧
       10 ≤ |o.tEnd - o.t0| / o.stepSize ∧ |o.tEnd - o.t0| / o.stepSize ≤ 100000)) ∧
    (∀ o : ODEOptions, o.t0 = o.tEnd → (ODESolver.validateOptions o).valid = false) ∧
    (∀ o : ODEOptions, o.stepSize > |o.tEnd - o.t0| →
      (ODESolver.validateOptions o).valid = false) := by
  refine ⟨fun o => ODESolver.validateOptions_valid_iff o, fun o heq => ?_, fun o hgt => ?_⟩
  · cases hv : (ODESolver.validateOptions o).valid with
    | false => rfl
    | true =>
      obtain ⟨-, -, hne, -⟩ := (ODESolver.validateOptions_valid_iff o).mp hv
      exact absurd heq hne
  · cases hv : (ODESolver.validateOptions o).valid with
    | false => rfl
    | true =>
      obtain ⟨-, hle, -⟩ := (ODESolver.validateOptions_valid_iff o).mp hv
      exact absurd hgt (not_lt.mpr hle)

attribute [local semireducible] Rat.add Rat.mul Rat.inv Rat.sub in
/-- Claim C2 witness: the amended characterization applied at concrete
boundary inputs. -/
theorem claim_C2_witness :
    ((⟨1, 0, 1, 1/10, none, none⟩ : ODEOptions).t0 = (⟨1, 0, 1, 1/10, none, none⟩ : ODEOptions).tEnd ∧
      (ODESolver.validateOptions ⟨1, 0, 1, 1/10, none, none⟩).valid = false) ∧
    ((⟨0, 0, 1, 2, none, none⟩ : ODEOptions).stepSize > |(1 : ℚ) - 0| ∧
      (ODESolver.validateOptions ⟨0, 0, 1, 2, none, none⟩).valid = false) :=
  ⟨⟨rfl, claim_C2.2.1 ⟨1, 0, 1, 1/10, none, none⟩ rfl⟩,
   ⟨by decide, claim_C2.2.2 ⟨0, 0, 1, 2, none, none⟩ (by decide)⟩⟩

attribute [local semireducible] Rat.add Rat.mul Rat.inv Rat.sub in
/-- Claim C3 counterexample: a stepSize failing the step-size advisory
(2 steps < 10 across [0,1]) is a hard validation failure for the scalar
solver but is accepted by the coupled solver, whose solve then succeeds
- so the coupled option validation does NOT mirror the scalar one. -/
theorem claim_C3_counterexample :
    (ODESolver.validateOptions optsHalf).valid = false ∧
    (CoupledODESolver.validateOptions coptsHalf).valid = true ∧
    (CoupledODESolver.solveWithFunction fZeroC coptsHalf).success = true := by
  refine ⟨by decide, by decide, by decide⟩

/-- Claim C3 (amended): the coupled option validation consists of the
generalized bounds checks only - it never consults the step-size
advisory, so an advisory-failing stepSize passes coupled validation
(unlike the scalar solver, where it is a hard failure). -/
theorem claim_C3 :
    ∀ o : CoupledODEOptions, (CoupledODESolver.validateOptions o).valid = true ↔
      (o.y0 ≠ [] ∧ 0 < o.stepSize ∧ o.stepSize ≤ |o.tEnd - o.t0| ∧ o.t0 ≠ o.tEnd ∧
       |o.tEnd - o.t0| ≤ 1000 ∧ ∀ yi ∈ o.y0, |yi| ≤ 1000000) :=
  fun o => CoupledODESolver.coupled_validateOptions_valid_iff o

attribute [local semireducible] Rat.add Rat.mul Rat.inv Rat.sub in
/-- Claim C3 witness: the characterization applied at the concrete
advisory-failing options accepted by the coupled solver. -/
theorem claim_C3_witness :
    (CoupledODESolver.validateOptions coptsHalf).valid = true :=
  (claim_C3 coptsHalf).mpr (by decide)

attribute [local semireducible] Rat.add Rat.mul Rat.inv Rat.sub in
/-- Claim C4 counterexample: an evaluator returning a vector of length 1
for a state of length 2 does NOT make the integration step fail - the
solve succeeds (with no error), so a length mismatch is silently
absorbed. -/
theorem claim_C4_counterexample :
    (CoupledODESolver.solveWithFunction fOneC coptsPair).success = true ∧
    (CoupledODESolver.solveWithFunction fOneC coptsPair).error = none := by
  constructor <;> decide

attribute [local semireducible] Rat.add Rat.mul Rat.inv Rat.sub in
/-- Claim C4 (amended): a length mismatch between the evaluator output
and the state vector is silently absorbed - missing derivative
components are treated as 0 and extra components are ignored, the state
always keeps the initial condition length, and the solve can succeed;
only non-finite components cause a step failure. Concretely, the
mismatched solve above succeeds with every point carrying a length-2
state whose second component stays at 0. -/
theorem claim_C4 :
    (∀ (f : CoupledODEFunction) (o : CoupledODEOptions),
      (CoupledODESolver.solveWithFunction f o).success = true →
      ∀ p ∈ (CoupledODESolver.solveWithFunction f o).points,
        p.y.length = o.y0.length) ∧
    ((CoupledODESolver.solveWithFunction fOneC coptsPair).points.map
        (fun p => p.y.length) = List.replicate 11 2) ∧
    ((CoupledODESolver.solveWithFunction fOneC coptsPair).points.getLast?.map
        (fun p => p.y) = some [JVal.fin 1, JVal.fin 0]) := by
  refine ⟨fun f o hs => ?_, by decide, by decide⟩
  obtain ⟨d, rest, hpts, hlast, hlen⟩ := (CoupledODESolver.coupled_solveWithFunction_inv f o).1 hs
  exact hlen

attribute [local semireducible] Rat.add Rat.mul Rat.inv Rat.sub in
/-- Claim C4 witness: the length-preservation fact instantiated on the
concrete mismatched solve. -/
theorem claim_C4_witness :
    (CoupledODESolver.solveWithFunction fOneC coptsPair).success = true ∧
    ∀ p ∈ (CoupledODESolver.solveWithFunction fOneC coptsPair).points,
      p.y.length = coptsPair.y0.length :=
  ⟨by decide, claim_C4.1 fOneC coptsPair (by decide)⟩

attribute [local semireducible] Rat.add Rat.mul Rat.inv Rat.sub in
/-- Claim C5: evaluating the code at the failing inputs. The
normalization pass inserts an explicit multiplication between every
function name and its argument parenthesis (and between the generated
pow name and its arguments), so the documented grammar does NOT parse:
sin(t) * y becomes sin * (t) * y, whose self-test evaluation multiplies
the sin function object by a number and throws, and the power rewrite of
t^2 produces the mis-parenthesized pow * (t, 2) which is a mathjs parse
error. Both are expressions the specification (and the repository's own
unit tests) require to parse with valid = true; plain arithmetic on t, y
still parses. -/
theorem claim_C5 :
    EquationParser.normalizeExpression "sin(t) * y" = "sin * (t) * y" ∧
    (EquationParser.parse "sin(t) * y").valid = false ∧
    EquationParser.normalizeExpression "t^2 + y^3" = "pow * (t, 2) + pow * (y, 3)" ∧
    (EquationParser.parse "t^2 + y^3").valid = false ∧
    (EquationParser.parse "exp(t) - y").valid = false ∧
    (ODESolver.solve "sin(t)" optsSin).success = false ∧
    (EquationParser.parse "t + y").valid = true := by
  refine ⟨by decide, by decide, by decide, by decide, by decide, by decide, by decide⟩

/-- Claim C6: scalar divergence and finiteness safety. A failed scalar
solve returns no points; every point a scalar solveWithFunction ever
returns has a finite y with |y| at most 1e10 and a finite derivative
(the t coordinate is an exact rational by construction); and from any
loop state, a step that would produce a finite y with |y| > 1e10 makes
the loop raise, so the solve fails as soon as the bound is exceeded. -/
theorem claim_C6 :
    (∀ (f : ODEFunction) (o : ODEOptions),
      ((ODESolver.solveWithFunction f o).success = false →
        (ODESolver.solveWithFunction f o).points = []) ∧
      (∀ p ∈ (ODESolver.solveWithFunction f o).points,
        p.y.isFinite = true ∧ p.y.absGt 10000000000 = false ∧ p.dydt.isFinite = true)) ∧
    (∀ (m : NumericalMethod) (f : ODEFunction) (tEnd h : ℚ) (fwd : Bool)
      (maxIter : ℕ) (t : ℚ) (y : JVal) (pts : List SolutionPoint) (r : ℕ) (nt q : ℚ),
      ¬((fwd = true ∧ t ≥ tEnd) ∨ (fwd = false ∧ t ≤ tEnd)) →
      m.solve f t y (adjStep tEnd h t fwd) = .ok (nt, JVal.fin q) →
      |q| > 10000000000 →
      ∃ e2, ODESolver.integLoop m f tEnd h fwd maxIter t y pts (r + 1) = .error e2) := by
  constructor
  · intro f o
    have h := ODESolver.solveWithFunction_inv f o
    refine ⟨fun hs => (h.2 hs).1, ?_⟩
    intro p hp
    cases hs : (ODESolver.solveWithFunction f o).success with
    | false =>
      rw [(h.2 hs).1] at hp
      simp at hp
    | true =>
      obtain ⟨d, rest, hpts, hdfin, hy, hlast, hmem⟩ := h.1 hs
      rcases hmem p hp with hp0 | hgood
      · rw [hp0]
        refine ⟨rfl, ?_, hdfin⟩
        simp only [JVal.absGt, decide_eq_false_iff_not, not_lt]
        linarith
      · exact hgood
  · intro m f tEnd h fwd maxIter t y pts r nt q hbreak hstep hq
    exact ODESolver.integLoop_unstable hbreak hstep hq

attribute [local semireducible] Rat.add Rat.mul Rat.inv Rat.sub in
/-- Claim C6 witness: the safety facts instantiated on a concrete
diverging solve (derivative 1e12, first step reaches |y| = 1e11). -/
theorem claim_C6_witness :
    ((ODESolver.solveWithFunction fBig optsSin).success = false ∧
      (ODESolver.solveWithFunction fBig optsSin).points = []) ∧
    (∃ e2, ODESolver.integLoop NumericalMethods.euler fBig 1 (1/10) true 50 0 (JVal.fin 0)
      [] (5 + 1) = .error e2) :=
  ⟨⟨by decide, ((claim_C6.1 fBig optsSin).1 (by decide))⟩,
   claim_C6.2 NumericalMethods.euler fBig 1 (1/10) true 50 0 (JVal.fin 0) [] 5
     (1/10) 100000000000 (by decide) (by decide) (by decide)⟩

attribute [local semireducible] Rat.add Rat.mul Rat.inv Rat.sub in
/-- Claim C7: for f(t,y) = t + y one Euler step from (0,1) with h = 0.1
gives exactly y = 1.1 and one RK4 step gives y = 133241/120000 which
lies strictly between 1.1 and 1.12 (it is 1.11034166...); in general
Euler computes (t + h, y + h f(t,y)) and RK4 the classical four-stage
formula with weights (1,2,2,1)/6. -/
theorem claim_C7 :
    (NumericalMethods.euler.solve (liftPure (fun t y => t + y)) 0 (JVal.fin 1) (1/10) =
      .ok (1/10, JVal.fin (11/10))) ∧
    (NumericalMethods.rk4.solve (liftPure (fun t y => t + y)) 0 (JVal.fin 1) (1/10) =
      .ok (1/10, JVal.fin (133241/120000))) ∧
    ((11 : ℚ)/10 < 133241/120000 ∧ (133241 : ℚ)/120000 < 112/100) ∧
    (∀ (g : ℚ → ℚ → ℚ) (t y h : ℚ),
      NumericalMethods.euler.solve (liftPure g) t (JVal.fin y) h =
        .ok (t + h, JVal.fin (y + h * g t y))) ∧
    (∀ (g : ℚ → ℚ → ℚ) (t y h : ℚ),
      NumericalMethods.rk4.solve (liftPure g) t (JVal.fin y) h =
        .ok (t + h, JVal.fin (y +
          h * (g t y +
               2 * g (t + h/2) (y + h * g t y / 2) +
               2 * g (t + h/2) (y + h * g (t + h/2) (y + h * g t y / 2) / 2) +
               g (t + h) (y + h * g (t + h/2) (y + h * g (t + h/2) (y + h * g t y / 2) / 2)))
            / 6))) := by
  refine ⟨by decide, by decide, ⟨by decide, by decide⟩, ?_, ?_⟩
  · intro g t y h
    simp [NumericalMethods.euler, liftPure, JVal.add, JVal.mul]
  · intro g t y h
    simp only [NumericalMethods.rk4, liftPure, JVal.add, JVal.mul, JVal.div]
    norm_num

/-- Claim C8 counterexample to the original coupled half: the input
["q +"] is inside the frozen claim scope (its extracted identifiers
contain q, which does not match t or y-followed-by-digits), and
parseCoupled does return valid = false, but because the mathjs parse of
each expression runs before the variable validation the error is the
generic "Parse error: Unexpected end of expression", which does not
name the offending identifier q (it contains no q at all). -/
theorem claim_C8_counterexample :
    EquationParser.extractVariables (EquationParser.normalizeExpression "q +") = ["q"] ∧
    EquationParser.matchesCoupledVar "q" = false ∧
    (EquationParser.parseCoupled ["q +"]).valid = false ∧
    (EquationParser.parseCoupled ["q +"]).error =
      some "Parse error: Unexpected end of expression" ∧
    "Parse error: Unexpected end of expression".toList.all (fun c => !(c == 'q')) = true :=
  ⟨by decide, by decide, by rfl, by rfl, by decide⟩

/-- Claim C8 (corrected): identifier validation. Scalar: whenever the
extracted identifiers of the normalized expression contain anything
besides t and y, parse fails and its error message lists exactly those
offending identifiers. Coupled: the mathjs parse of each expression
runs before the variable validation, so the claimed behaviour holds
only when every expression mathjs-parses: then, whenever the sorted
variable set contains an identifier not matching t or
y-followed-by-digits, parseCoupled fails and its error names the first
offending identifier; when the mathjs parse of some expression fails
instead, parseCoupled fails with the generic message "Parse error: m",
which need not name any identifier. -/
theorem claim_C8 :
    (∀ e : String,
      (EquationParser.extractVariables (EquationParser.normalizeExpression e)).filter
          (fun v => !(v == "t") && !(v == "y")) ≠ [] →
      (EquationParser.parse e).valid = false ∧
      (EquationParser.parse e).error = some ("Invalid variables found: " ++
        joinComma ((EquationParser.extractVariables (EquationParser.normalizeExpression e)).filter
          (fun v => !(v == "t") && !(v == "y"))) ++
        ". Only \x27t\x27 and \x27y\x27 are allowed.")) ∧
    (∀ (es : List String) (vars : List String) (trees : List Mathjs.MNode) (bad : String),
      es ≠ [] →
      EquationParser.collectLoop (es.map EquationParser.normalizeExpression) [] [] =
        .ok (vars, trees) →
      (EquationParser.sortStrings vars).find?
        (fun v => !EquationParser.matchesCoupledVar v) = some bad →
      (EquationParser.parseCoupled es).valid = false ∧
      (EquationParser.parseCoupled es).error = some ("Invalid variable \x27" ++ bad ++
        "\x27. Expected format: t, y1, y2, y3, etc.")) ∧
    (∀ (es : List String) (m : String),
      es ≠ [] →
      EquationParser.collectLoop (es.map EquationParser.normalizeExpression) [] [] =
        .error m →
      (EquationParser.parseCoupled es).valid = false ∧
      (EquationParser.parseCoupled es).error = some ("Parse error: " ++ m)) := by
  refine ⟨?_, ?_, ?_⟩
  · intro e hbad
    unfold EquationParser.parse
    dsimp only
    rw [if_neg]
    · exact ⟨rfl, rfl⟩
    · intro hempty
      exact hbad (List.isEmpty_iff.mp hempty)
  · intro es vars trees bad hne hcollect hfind
    unfold EquationParser.parseCoupled
    rw [if_neg (by
      intro hempty
      exact hne (List.isEmpty_iff.mp hempty))]
    dsimp only
    rw [hcollect]
    dsimp only
    rw [hfind]
    exact ⟨rfl, rfl⟩
  · intro es m hne hcollect
    unfold EquationParser.parseCoupled
    rw [if_neg (by
      intro hempty
      exact hne (List.isEmpty_iff.mp hempty))]
    dsimp only
    rw [hcollect]
    exact ⟨rfl, rfl⟩

/-- Claim C8 witness: the scalar theorem at "x + y" (offending
identifier x), the coupled theorem at ["y1 + q"] (offending identifier
q), and the parse-failure branch at ["q +"]. -/
theorem claim_C8_witness :
    ((EquationParser.extractVariables (EquationParser.normalizeExpression "x + y")).filter
        (fun v => !(v == "t") && !(v == "y")) ≠ [] ∧
      (EquationParser.parse "x + y").valid = false ∧
      (EquationParser.parse "x + y").error =
        some "Invalid variables found: x. Only \x27t\x27 and \x27y\x27 are allowed.") ∧
    ((EquationParser.parseCoupled ["y1 + q"]).valid = false ∧
      (EquationParser.parseCoupled ["y1 + q"]).error =
        some "Invalid variable \x27q\x27. Expected format: t, y1, y2, y3, etc.") ∧
    ((EquationParser.parseCoupled ["t *"]).valid = false ∧
      (EquationParser.parseCoupled ["t *"]).error =
        some "Parse error: Unexpected end of expression") := by
  refine ⟨?_, ?_, ?_⟩
  · refine ⟨by decide, ?_⟩
    have h := claim_C8.1 "x + y" (by decide)
    exact ⟨h.1, by rw [h.2]; rfl⟩
  · have h := claim_C8.2.1 ["y1 + q"] ["q", "y1"]
      [Mathjs.MNode.bin '+' (Mathjs.MNode.sym "y1") (Mathjs.MNode.sym "q")] "q"
      (by decide) (by rfl) (by rfl)
    exact ⟨h.1, by rw [h.2]; rfl⟩
  · have h := claim_C8.2.2 ["t *"] "Unexpected end of expression"
      (by decide) (by rfl)
    exact ⟨h.1, by rw [h.2]; rfl⟩

attribute [local semireducible] Rat.add Rat.mul Rat.inv Rat.sub in
/-- Claim C9: the off-by-one at the iteration cap. The unit solve with
h = 0.1 needs 10 accepted steps, so the terminating loop entry is entry
11; with maxIterations = 11 that entry increments the counter to the cap
and the solver throws the max-iterations error even though the
trajectory is complete (with maxIterations = 12 the same solve succeeds
with its 11 points). In general, any loop entry that reaches the
termination condition with exactly one iteration of budget left fails
with the max-iterations error, so a solve succeeds only when the number
of loop entries stays strictly below maxIterations. -/
theorem claim_C9 :
    (ODESolver.solveWithFunction fZero optsCap11).success = false ∧
    (ODESolver.solveWithFunction fZero optsCap11).error =
      some ("Computation error: " ++ ODESolver.maxIterMsg 11) ∧
    (ODESolver.solveWithFunction fZero optsCap12).success = true ∧
    (ODESolver.solveWithFunction fZero optsCap12).points.length = 11 ∧
    (∀ (m : NumericalMethod) (f : ODEFunction) (tEnd h : ℚ) (fwd : Bool)
      (maxIter : ℕ) (t : ℚ) (y : JVal) (pts : List SolutionPoint),
      ((fwd = true ∧ t ≥ tEnd) ∨ (fwd = false ∧ t ≤ tEnd)) →
      ODESolver.integLoop m f tEnd h fwd maxIter t y pts 1 =
        .error (ODESolver.maxIterMsg maxIter)) := by
  refine ⟨by decide, by decide, by decide, by decide, ?_⟩
  intro m f tEnd h fwd maxIter t y pts hbreak
  exact ODESolver.integLoop_break_at_cap hbreak

attribute [local semireducible] Rat.add Rat.mul Rat.inv Rat.sub in
/-- Claim C9 witness: the general cap fact at a concrete state that has
already reached tEnd. -/
theorem claim_C9_witness :
    ((true = true ∧ (1 : ℚ) ≥ 1) ∨ (true = false ∧ (1 : ℚ) ≤ 1)) ∧
    ODESolver.integLoop NumericalMethods.euler fZero 1 (1/10) true 11 1 (JVal.fin 1) [] 1 =
      .error (ODESolver.maxIterMsg 11) :=
  ⟨by decide,
   claim_C9.2.2.2.2 NumericalMethods.euler fZero 1 (1/10) true 11 1 (JVal.fin 1) []
     (by decide)⟩

/-- Claim C10 counterexample: validateExpression accepts floor(t) - the
fragment for is not a substring of floor (the double o breaks it), so
the claimed over-blocking does not happen. -/
theorem claim_C10_counterexample :
    EquationParser.validateExpression "floor(t)" =
      { valid := true, error := none } := by decide

/-- Claim C10 (amended): validateExpression does match its dangerous
patterns as case-insensitive substrings - any expression containing the
fragment for (in any case) is rejected - but for does not occur inside
floor, so floor(t) passes validateExpression with valid = true. -/
theorem claim_C10 :
    (EquationParser.validateExpression "floor(t)" = { valid := true, error := none }) ∧
    (EquationParser.patternHits "for" true "floor(t)" = false) ∧
    (∀ e : String, EquationParser.patternHits "for" true e = true →
      (EquationParser.validateExpression e).valid = false) ∧
    ((EquationParser.validateExpression "t + FOR").valid = false) := by
  refine ⟨by decide, by decide, ?_, by decide⟩
  intro e hhit
  unfold EquationParser.validateExpression
  cases hfind : EquationParser.dangerousPatterns.findSome? (fun p =>
      if EquationParser.patternHits p.2.1 p.2.2 e then some p.1 else none) with
  | some src => rfl
  | none =>
    exfalso
    have hall := List.findSome?_eq_none_iff.mp hfind ("for", "for", true) (by decide)
    rw [hhit] at hall
    simp at hall

/-- Claim C10 witness: the substring-rejection fact at a concrete
expression containing for. -/
theorem claim_C10_witness :
    EquationParser.patternHits "for" true "t + for" = true ∧
    (EquationParser.validateExpression "t + for").valid = false :=
  ⟨by decide, claim_C10.2.2.1 "t + for" (by decide)⟩
